import Mathlib

/-!
Verification development for the browser-use DOM tree serializer
(`browser_use/dom/serializer/serializer.py`).

The Python source is shallowly embedded: every pipeline stage used by a
claim is transliterated into an executable Lean function over an explicit
data model of raw DOM nodes (`RawNode` / `RawData`) and simplified nodes
(`SNode`).  Python floats are modelled as rationals, Python dicts over
string keys as insertion-ordered association lists, and the two external
collaborators (the clickability oracle and the paint-order annotator) are
taken as parameters, exactly as the specification declares them to be
out-of-scope pure collaborators.
-/

namespace DomSerializer

/-- Node kinds of the captured page tree (the `NodeType` enumeration of the
DOM views module, as used by the serializer). -/
inductive NodeKind where
  | documentNode
  | documentFragmentNode
  | elementNode
  | textNode
deriving DecidableEq, Repr

/-- Axis-aligned rectangle of a layout snapshot (`DOMRect`).  Coordinates and
sizes are modelled as rationals. -/
structure DOMRect where
  x : ℚ
  y : ℚ
  width : ℚ
  height : ℚ
deriving DecidableEq, Repr

/-- The containment fraction computed inside `_is_contained`:
`intersection_area / child_area`, with axis-aligned overlap
`max(0, min(right1, right2) - max(left1, left2))` per axis. -/
def containedFraction (child parent : DOMRect) : ℚ :=
  let x_overlap := max 0 (min (child.x + child.width) (parent.x + parent.width) - max child.x parent.x)
  let y_overlap := max 0 (min (child.y + child.height) (parent.y + parent.height) - max child.y parent.y)
  (x_overlap * y_overlap) / (child.width * child.height)

/-- `DOMTreeSerializer._is_contained`: a child rectangle is contained in the
parent rectangle when its area is non-zero and the containment fraction
reaches the threshold. -/
def is_contained (child parent : DOMRect) (threshold : ℚ) : Bool :=
  let x_overlap := max 0 (min (child.x + child.width) (parent.x + parent.width) - max child.x parent.x)
  let y_overlap := max 0 (min (child.y + child.height) (parent.y + parent.height) - max child.y parent.y)
  let intersection_area := x_overlap * y_overlap
  let child_area := child.width * child.height
  if child_area = 0 then false
  else decide (intersection_area / child_area ≥ threshold)

/-- Python `str.lower()`, restricted to ASCII case mapping. -/
def pyLower (s : String) : String := String.mk (s.toList.map Char.toLower)

/-- Strip leading and trailing whitespace from a character list. -/
def pyStripChars (l : List Char) : List Char :=
  ((l.dropWhile Char.isWhitespace).reverse.dropWhile Char.isWhitespace).reverse

/-- Python `str.strip()`. -/
def pyStrip (s : String) : String := String.mk (pyStripChars s.toList)

/-- Python `sub in s` for a single-character separator (`'/' in s`). -/
def pyContainsChar (s : String) (c : Char) : Bool := s.toList.contains c

/-- Python `s[:n]`. -/
def pyTake (s : String) (n : ℕ) : String := String.mk (s.toList.take n)

/-- Split a character list on a separator character (Python `s.split(sep)`
for a one-character separator; always non-empty). -/
def splitOnChar (c : Char) : List Char → List (List Char)
  | [] => [[]]
  | x :: xs =>
      match splitOnChar c xs with
      | [] => [[]]
      | g :: gs => if x = c then [] :: g :: gs else (x :: g) :: gs

/-- Python `s.split(sep)[-1]` for a one-character separator. -/
def pySplitLast (s : String) (c : Char) : String :=
  String.mk ((splitOnChar c s.toList).getLastD [])

/-- Python `str.isdigit()` on ASCII digit strings: non-empty and all digits. -/
def pyIsDigit (s : String) : Bool := s ≠ "" && s.toList.all Char.isDigit

/-- Python `str.isupper()` restricted to ASCII: at least one letter and no
lowercase letter. -/
def pyIsUpper (s : String) : Bool :=
  (s.toList.any fun c => c.isAlpha) && (s.toList.all fun c => !c.isLower)

/-- A Python string-keyed dict, modelled as an insertion-ordered association
list (first binding of a key wins on lookup). -/
abbrev AttrMap := List (String × String)

/-- Dict lookup returning `none` for a missing key (`dict.get(k)`). -/
def amGet (m : AttrMap) (k : String) : Option String :=
  (m.find? fun kv => kv.1 == k).map (·.2)

/-- Dict membership (`k in dict`). -/
def amContains (m : AttrMap) (k : String) : Bool := (amGet m k).isSome

/-- Dict update `m[k] = v`: replaces the value in place when the key exists
(keeping its position, like a Python dict), otherwise appends. -/
def amSet (m : AttrMap) (k v : String) : AttrMap :=
  if m.any (fun kv => kv.1 == k) then
    m.map fun kv => if kv.1 == k then (k, v) else kv
  else m ++ [(k, v)]

/-- Dict deletion `del m[k]` (no-op when absent, like `dict.pop(k, None)`). -/
def amErase (m : AttrMap) (k : String) : AttrMap := m.filter fun kv => kv.1 != k

/-- Value of a digit string as a natural number, most significant first. -/
def digitsValN (l : List Char) : ℕ :=
  l.foldl (fun acc c => acc * 10 + (c.toNat - '0'.toNat)) 0

/-- Python `float(str)` on plain decimal literals: optional surrounding
whitespace, optional sign, digits with an optional fractional part; the
exact decimal value is returned as a rational.  `none` models `float`
raising `ValueError` on any other string. -/
def parseDecimal (s : String) : Option ℚ :=
  let l := pyStripChars s.toList
  let signAndRest : Bool × List Char :=
    match l with
    | '-' :: rest => (true, rest)
    | '+' :: rest => (false, rest)
    | _ => (false, l)
  let neg := signAndRest.1
  let l' := signAndRest.2
  let intPart := l'.takeWhile Char.isDigit
  let rest := l'.dropWhile Char.isDigit
  let build : List Char → ℕ → ℚ := fun digits k =>
    mkRat (if neg then -(digitsValN digits : ℤ) else (digitsValN digits : ℤ)) (10 ^ k)
  match rest with
  | [] => if intPart.isEmpty then none else some (build intPart 0)
  | '.' :: fracs =>
      if fracs.all Char.isDigit && !(intPart.isEmpty && fracs.isEmpty) then
        some (build (intPart ++ fracs) fracs.length)
      else none
  | _ => none

/-- `_safe_parse_number`: parse a numeric attribute string, falling back to
the caller-provided default on parse failure. -/
def safe_parse_number (value_str : String) (default : ℚ) : ℚ :=
  (parseDecimal value_str).getD default

/-- `_safe_parse_optional_number`: parse an optional numeric attribute
string, returning `none` for a missing/empty/unparsable value. -/
def safe_parse_optional_number (value_str : Option String) : Option ℚ :=
  match value_str with
  | none => none
  | some s => if s = "" then none else parseDecimal s

/-- Layout snapshot attached to a raw node: visibility flag and optional
bounding rectangle. -/
structure SnapshotNode where
  is_visible : Bool
  bounds : Option DOMRect
deriving DecidableEq, Repr

/-- Value of an accessibility property (booleans or strings, as consumed by
the serializer). -/
inductive PropVal where
  | pbool (b : Bool)
  | pstr (s : String)
deriving DecidableEq, Repr

/-- Python truthiness of a property value. -/
def PropVal.truthy : PropVal → Bool
  | .pbool b => b
  | .pstr s => s ≠ ""

/-- Python `str(...)` of a property value. -/
def PropVal.pyStr : PropVal → String
  | .pbool b => if b then "True" else "False"
  | .pstr s => s

/-- Python truthiness of an optional property value (`prop.value` tests). -/
def optTruthy : Option PropVal → Bool
  | none => false
  | some v => v.truthy

/-- Python `str(prop.value)` of an optional property value. -/
def optPyStr : Option PropVal → String
  | none => "None"
  | some v => v.pyStr

/-- An accessibility property record (`name`, `value`). -/
structure AXProperty where
  name : String
  value : Option PropVal
deriving DecidableEq, Repr

/-- The accessibility sub-record of a raw node (`ax_node`). -/
structure AXNode where
  role : Option String
  properties : Option (List AXProperty)
  child_ids : Option (List ℕ)
deriving DecidableEq, Repr

/-- Per-node data of a raw captured DOM node (`EnhancedDOMTreeNode` fields
read by the serializer, minus the child linkage). -/
structure RawData where
  node_type : NodeKind
  node_name : String
  node_value : Option String
  attributes : Option AttrMap
  backend_node_id : ℕ
  node_id : ℕ
  snapshot_node : Option SnapshotNode
  is_actually_scrollable : Bool
  is_scrollable : Bool
  should_show_scroll_info : Bool
  shadow_root_type : Option String
  ax_node : Option AXNode
  scroll_info_text : Option String
deriving DecidableEq, Repr

/-- Modelled from the spec (the DOM views module is outside `src/`): the
`tag_name` accessor is the lowercased node name. -/
def RawData.tag_name (r : RawData) : String := pyLower r.node_name

/-- Modelled from the spec: `is_visible` reads the visibility flag of the
optional layout snapshot; a missing snapshot means not visible. -/
def RawData.is_visible (r : RawData) : Bool :=
  match r.snapshot_node with
  | some s => s.is_visible
  | none => false

/-- `node.attributes.get(k)` guarded by an attribute map possibly absent. -/
def RawData.getAttr (r : RawData) (k : String) : Option String :=
  r.attributes.bind fun m => amGet m k

/-- `node.attributes.get(k, default) if node.attributes else default`. -/
def RawData.getAttrD (r : RawData) (k dflt : String) : String :=
  (r.getAttr k).getD dflt

/-- Python truthiness of `node.attributes` (absent or empty dict is falsy). -/
def RawData.attrsTruthy (r : RawData) : Bool :=
  match r.attributes with
  | some (_ :: _) => true
  | _ => false

/-- `node.tag_name and node.tag_name.lower() == 'input' and node.attributes
and node.attributes.get('type') == 'file'`: the hidden-but-functional file
input exception used throughout the pipeline. -/
def RawData.isFileInput (r : RawData) : Bool :=
  r.tag_name ≠ "" && pyLower r.tag_name == "input" && r.attrsTruthy &&
    r.getAttr "type" == some "file"

/-- A raw captured DOM node: per-node data plus ordered children, shadow
roots, and (for frame elements) an owned embedded document. -/
inductive RawNode where
  | mk (data : RawData) (children : List RawNode) (shadow_roots : List RawNode)
      (content_document : Option RawNode)

/-- The per-node data of a raw node. -/
def RawNode.data : RawNode → RawData
  | .mk d _ _ _ => d

/-- The ordered element/text children of a raw node (`children_nodes`). -/
def RawNode.children : RawNode → List RawNode
  | .mk _ c _ _ => c

/-- The ordered shadow roots of a raw node. -/
def RawNode.shadow_roots : RawNode → List RawNode
  | .mk _ _ s _ => s

/-- The embedded document of a frame element, when any. -/
def RawNode.content_document : RawNode → Option RawNode
  | .mk _ _ _ cd => cd

/-- Modelled from the spec: `children_and_shadow_roots` combines the ordered
children with the ordered shadow roots. -/
def RawNode.children_and_shadow_roots (n : RawNode) : List RawNode :=
  n.children ++ n.shadow_roots

theorem RawNode.sizeOf_lt_of_mem_children {c n : RawNode} (h : c ∈ n.children) :
    sizeOf c < sizeOf n := by
  cases n with
  | mk d cs ss cd =>
    simp only [RawNode.children] at h
    have h1 := List.sizeOf_lt_of_mem h
    simp only [RawNode.mk.sizeOf_spec]
    omega

theorem RawNode.sizeOf_lt_of_mem_shadow {c n : RawNode} (h : c ∈ n.shadow_roots) :
    sizeOf c < sizeOf n := by
  cases n with
  | mk d cs ss cd =>
    simp only [RawNode.shadow_roots] at h
    have h1 := List.sizeOf_lt_of_mem h
    simp only [RawNode.mk.sizeOf_spec]
    omega

theorem RawNode.sizeOf_lt_of_mem_casr {c n : RawNode} (h : c ∈ n.children_and_shadow_roots) :
    sizeOf c < sizeOf n := by
  rcases List.mem_append.mp h with h' | h'
  · exact RawNode.sizeOf_lt_of_mem_children h'
  · exact RawNode.sizeOf_lt_of_mem_shadow h'

theorem RawNode.sizeOf_lt_of_content_document {m n : RawNode}
    (h : n.content_document = some m) : sizeOf m < sizeOf n := by
  cases n with
  | mk d cs ss cd =>
    simp only [RawNode.content_document] at h
    subst h
    simp only [RawNode.mk.sizeOf_spec, Option.some.sizeOf_spec]
    omega

/-- A synthesized sub-widget descriptor (`node._compound_children` entries).
Optional fields model dict keys that may be absent (`options_count`,
`first_options`, `format_hint` only appear on the select listbox entry;
`format_hint` is stored only when truthy). -/
structure CompoundChild where
  role : String
  name : String
  valuemin : Option ℚ
  valuemax : Option ℚ
  valuenow : Option String
  options_count : Option ℕ
  first_options : Option (List String)
  format_hint : Option String
deriving DecidableEq, Repr

/-- A descriptor with only `role`/`name`/numeric-value fields (the common
dict shape used by most branches of `_add_compound_components`). -/
def CompoundChild.basic (role name : String) (vmin vmax : Option ℚ)
    (vnow : Option String) : CompoundChild :=
  ⟨role, name, vmin, vmax, vnow, none, none, none⟩

/-- Python truthiness of an optional string (absent or empty is falsy). -/
def optStrTruthy : Option String → Bool
  | none => false
  | some s => s ≠ ""

/-- Python truthiness of `node.ax_node and node.ax_node.child_ids`. -/
def axChildIdsTruthy (d : RawData) : Bool :=
  match d.ax_node with
  | some ax =>
      match ax.child_ids with
      | some (_ :: _) => true
      | _ => false
  | none => false

/-- One collected `<option>` entry (`{'text': ..., 'value': ...}`). -/
structure OptionEntry where
  text : String
  value : String
deriving DecidableEq, Repr

/-- `get_direct_text_content`: concatenation of the trimmed values of the
direct text-node children, joined by single spaces, trimmed. -/
def getDirectTextContent (n : RawNode) : String :=
  pyStrip
    (n.children.foldl
      (fun acc c =>
        if c.data.node_type = NodeKind.textNode && optStrTruthy c.data.node_value then
          acc ++ (pyStrip (c.data.node_value.getD "") ++ " ")
        else acc)
      "")

mutual

/-- `extract_options_recursive`: collect `option` entries from a subtree,
descending through `optgroup` and any other wrapper elements; `option`
elements themselves are not descended into. -/
def collectOptions : RawNode → List OptionEntry
  | n@(.mk d cs _ _) =>
    if pyLower d.tag_name = "option" then
      let option_value0 :=
        match d.attributes with
        | some attrs =>
            if amContains attrs "value" then pyStrip ((amGet attrs "value").getD "") else ""
        | none => ""
      let option_text := getDirectTextContent n
      let option_value :=
        if option_value0 = "" && option_text ≠ "" then option_text else option_value0
      if option_text ≠ "" || option_value ≠ "" then [⟨option_text, option_value⟩] else []
    else
      collectOptionsList cs
termination_by n => sizeOf n
decreasing_by all_goals (simp_wf; try omega)

/-- Option collection over a list of sibling nodes, in order. -/
def collectOptionsList : List RawNode → List OptionEntry
  | [] => []
  | c :: cs => collectOptions c ++ collectOptionsList cs
termination_by l => sizeOf l
decreasing_by all_goals (simp_wf; try omega)

end

/-- The information record returned by `_extract_select_options`. -/
structure SelectOptionsInfo where
  count : ℕ
  first_options : List String
  format_hint : Option String
deriving DecidableEq, Repr

/-- Display truncation of one option: first 30 characters plus an ellipsis
when longer. -/
def truncateOption (s : String) : String :=
  pyTake s 30 ++ (if s.length > 30 then "..." else "")

/-- The format-hint inference of `_extract_select_options`: ordered pattern
checks over the (truthy) first five option values, applied only when at
least two option values were collected. -/
def inferFormatHint (option_values : List String) : Option String :=
  if option_values.length ≥ 2 then
    let vals := (option_values.take 5).filter fun v => v ≠ ""
    if vals.all pyIsDigit then some "numeric"
    else if vals.all (fun v => v.length = 2 && pyIsUpper v) then some "country/state codes"
    else if vals.all (fun v => pyContainsChar v '/' || pyContainsChar v '-') then some "date/path format"
    else if vals.any (fun v => pyContainsChar v '@') then some "email addresses"
    else none
  else none

/-- `_extract_select_options`: recursively collect the option entries of a
select element, prepare up to four display strings plus a remainder marker,
and infer a format hint. -/
def extract_select_options (select_node : RawNode) : Option SelectOptionsInfo :=
  if select_node.children.isEmpty then none
  else
    let options := collectOptionsList select_node.children
    if options.isEmpty then none
    else
      let first_options :=
        (options.take 4).filterMap fun o =>
          let display_text := if o.text ≠ "" then o.text else o.value
          if display_text ≠ "" then some (truncateOption display_text) else none
      let first_options :=
        if options.length > 4 then
          first_options ++ ["... " ++ toString (options.length - 4) ++ " more options..."]
        else first_options
      let option_values := options.map (·.value)
      some ⟨options.length, first_options, inferFormatHint option_values⟩

/-- File-input current-value extraction: scan the accessibility properties
for the first truthy `valuetext` (stopping there even when its cleaned value
is rejected) or the first truthy non-empty `value`, stripping a path down to
its final component; defaults to the literal string `"None"`. -/
def fileCurrentValue : List AXProperty → String
  | [] => "None"
  | p :: rest =>
    if p.name = "valuetext" && optTruthy p.value then
      let value_str := pyStrip (optPyStr p.value)
      if value_str ≠ "" &&
          !(["", "no file chosen", "no file selected"].contains (pyLower value_str)) then
        value_str
      else "None"
    else if p.name = "value" && optTruthy p.value then
      let value_str := pyStrip (optPyStr p.value)
      if value_str ≠ "" then
        if pyContainsChar value_str '\\' then pySplitLast value_str '\\'
        else if pyContainsChar value_str '/' then pySplitLast value_str '/' 
        else value_str
      else fileCurrentValue rest
    else fileCurrentValue rest

/-- The input types for which `input` elements get compound processing. -/
def compoundInputTypes : List String :=
  ["date", "time", "datetime-local", "month", "week", "range", "number", "color", "file"]

/-- The local `input_type` value:
`node.attributes.get('type', '') if node.attributes else ''`. -/
def inputTypeOf (d : RawData) : String :=
  match d.attributes with
  | some m => (amGet m "type").getD ""
  | none => ""

/-- `'multiple' in node.attributes if node.attributes else False`. -/
def fileMultiple (d : RawData) : Bool :=
  match d.attributes with
  | some m => amContains m "multiple"
  | none => false

/-- The file-input current value: `fileCurrentValue` over the accessibility
properties when present, else the literal `"None"`. -/
def fileValue (d : RawData) : String :=
  match d.ax_node with
  | some ax =>
      match ax.properties with
      | some props => fileCurrentValue props
      | none => "None"
  | none => "None"

/-- The `input`-element branches of `_add_compound_components`, dispatching
on the `type` attribute. -/
def inputCompound (d : RawData) : List CompoundChild × Bool :=
  if ["date", "time", "datetime-local", "month", "week"].contains (inputTypeOf d) then ([], false)
  else if inputTypeOf d = "range" then
    ([CompoundChild.basic "slider" "Value"
        (some (safe_parse_number (d.getAttrD "min" "0") 0))
        (some (safe_parse_number (d.getAttrD "max" "100") 100)) none],
     true)
  else if inputTypeOf d = "number" then
    ([CompoundChild.basic "button" "Increment" none none none,
      CompoundChild.basic "button" "Decrement" none none none,
      CompoundChild.basic "textbox" "Value"
        (safe_parse_optional_number (d.getAttr "min"))
        (safe_parse_optional_number (d.getAttr "max")) none],
     true)
  else if inputTypeOf d = "color" then
    ([CompoundChild.basic "textbox" "Hex Value" none none none,
      CompoundChild.basic "button" "Color Picker" none none none],
     true)
  else if inputTypeOf d = "file" then
    ([CompoundChild.basic "button" "Browse Files" none none none,
      CompoundChild.basic "textbox"
        (if fileMultiple d then "Files Selected" else "File Selected")
        none none (some (fileValue d))],
     true)
  else ([], false)

/-- The `select`-element branch of `_add_compound_components`: a
dropdown-toggle button plus the Options listbox, enriched by the option
extraction when it yields anything. -/
def selectCompound (n : RawNode) : List CompoundChild × Bool :=
  (match extract_select_options n with
   | some info =>
       [CompoundChild.basic "button" "Dropdown Toggle" none none none,
        { role := "listbox", name := "Options", valuemin := none,
          valuemax := none, valuenow := none,
          options_count := some info.count,
          first_options := some info.first_options,
          format_hint := info.format_hint }]
   | none =>
       [CompoundChild.basic "button" "Dropdown Toggle" none none none,
        CompoundChild.basic "listbox" "Options" none none none],
   true)

/-- `_add_compound_components`: the synthesized child descriptors for a raw
node together with the `is_compound_component` flag the call leaves on the
owning simplified node.  All numeric parsing is total (`Option`-valued), so
no exception can escape. -/
def add_compound_components (n : RawNode) : List CompoundChild × Bool :=
  if ¬(["input", "select", "details", "audio", "video"].contains n.data.tag_name) then ([], false)
  else if n.data.tag_name = "input" &&
      !(n.data.attrsTruthy &&
        (match n.data.getAttr "type" with
         | some t => compoundInputTypes.contains t
         | none => false)) then
    ([], false)
  else if n.data.tag_name ≠ "input" && !axChildIdsTruthy n.data then ([], false)
  else if n.data.tag_name = "input" then inputCompound n.data
  else if n.data.tag_name = "select" then selectCompound n
  else if n.data.tag_name = "details" then
    ([CompoundChild.basic "button" "Toggle Disclosure" none none none,
      CompoundChild.basic "region" "Content Area" none none none],
     true)
  else if n.data.tag_name = "audio" then
    ([CompoundChild.basic "button" "Play/Pause" none none none,
      CompoundChild.basic "slider" "Progress" (some 0) (some 100) none,
      CompoundChild.basic "button" "Mute" none none none,
      CompoundChild.basic "slider" "Volume" (some 0) (some 100) none],
     true)
  else if n.data.tag_name = "video" then
    ([CompoundChild.basic "button" "Play/Pause" none none none,
      CompoundChild.basic "slider" "Progress" (some 0) (some 100) none,
      CompoundChild.basic "button" "Mute" none none none,
      CompoundChild.basic "slider" "Volume" (some 0) (some 100) none,
      CompoundChild.basic "button" "Fullscreen" none none none],
     true)
  else ([], false)

/-- Shifting both endpoints of both intervals by the same amount leaves the
axis-aligned overlap length unchanged. -/
theorem axisOverlapShift (a b c d e : ℚ) :
    max 0 (min (a + e + b) (c + e + d) - max (a + e) (c + e))
      = max 0 (min (a + b) (c + d) - max a c) := by
  rw [show a + e + b = a + b + e by ring, show c + e + d = c + d + e by ring,
    min_add_add_right, max_add_add_right]
  congr 1
  ring

/-- C4: the bounding-box filter's containment test computes
`intersection_area / candidate_area` with per-axis overlap
`max(0, min(right1, right2) - max(left1, left2))`; the fraction is invariant
under translating both rectangles by the same vector, is `0` for disjoint
rectangles, is `1` when the candidate lies exactly inside the active
rectangle, and a zero-area candidate is never considered contained at any
threshold. -/
theorem containment_fraction_properties :
    (∀ (c p : DOMRect) (t : ℚ),
        is_contained c p t =
          (decide (c.width * c.height ≠ 0) && decide (containedFraction c p ≥ t)))
    ∧ (∀ (c p : DOMRect) (dx dy : ℚ),
        containedFraction
            ⟨c.x + dx, c.y + dy, c.width, c.height⟩
            ⟨p.x + dx, p.y + dy, p.width, p.height⟩ = containedFraction c p)
    ∧ (∀ (c p : DOMRect),
        (c.x + c.width ≤ p.x ∨ p.x + p.width ≤ c.x ∨
         c.y + c.height ≤ p.y ∨ p.y + p.height ≤ c.y) →
        containedFraction c p = 0)
    ∧ (∀ (c p : DOMRect),
        0 ≤ c.width → 0 ≤ c.height → c.width * c.height ≠ 0 →
        p.x ≤ c.x → c.x + c.width ≤ p.x + p.width →
        p.y ≤ c.y → c.y + c.height ≤ p.y + p.height →
        containedFraction c p = 1)
    ∧ (∀ (c p : DOMRect) (t : ℚ), c.width * c.height = 0 → is_contained c p t = false) := by
  refine ⟨?_, ?_, ?_, ?_, ?_⟩
  · intro c p t
    by_cases h : c.width * c.height = 0 <;>
      simp [is_contained, containedFraction, h]
  · intro c p dx dy
    simp only [containedFraction]
    rw [axisOverlapShift, axisOverlapShift]
  · intro c p h
    rcases h with h | h | h | h
    · have hx : min (c.x + c.width) (p.x + p.width) - max c.x p.x ≤ 0 := by
        have h1 := min_le_left (c.x + c.width) (p.x + p.width)
        have h2 := le_max_right c.x p.x
        linarith
      simp only [containedFraction]
      rw [max_eq_left hx]
      simp
    · have hx : min (c.x + c.width) (p.x + p.width) - max c.x p.x ≤ 0 := by
        have h1 := min_le_right (c.x + c.width) (p.x + p.width)
        have h2 := le_max_left c.x p.x
        linarith
      simp only [containedFraction]
      rw [max_eq_left hx]
      simp
    · have hy : min (c.y + c.height) (p.y + p.height) - max c.y p.y ≤ 0 := by
        have h1 := min_le_left (c.y + c.height) (p.y + p.height)
        have h2 := le_max_right c.y p.y
        linarith
      simp only [containedFraction]
      rw [max_eq_left hy]
      simp
    · have hy : min (c.y + c.height) (p.y + p.height) - max c.y p.y ≤ 0 := by
        have h1 := min_le_right (c.y + c.height) (p.y + p.height)
        have h2 := le_max_left c.y p.y
        linarith
      simp only [containedFraction]
      rw [max_eq_left hy]
      simp
  · intro c p hw hh harea h1 h2 h3 h4
    simp only [containedFraction]
    rw [min_eq_left h2, max_eq_left h1, min_eq_left h4, max_eq_left h3,
      show c.x + c.width - c.x = c.width by ring,
      show c.y + c.height - c.y = c.height by ring,
      max_eq_right hw, max_eq_right hh, div_self harea]
  · intro c p t h
    simp [is_contained, h]

/-- C4 witness: the properties evaluated at concrete rectangles. -/
theorem containment_fraction_properties_witness :
    containedFraction ⟨1, 1, 2, 2⟩ ⟨0, 0, 4, 4⟩ = 1 ∧
    containedFraction ⟨10, 0, 2, 2⟩ ⟨0, 0, 4, 4⟩ = 0 ∧
    is_contained ⟨1, 1, 0, 5⟩ ⟨0, 0, 4, 4⟩ (99 / 100) = false := by
  refine ⟨?_, ?_, ?_⟩
  · exact containment_fraction_properties.2.2.2.1 ⟨1, 1, 2, 2⟩ ⟨0, 0, 4, 4⟩
      (by norm_num) (by norm_num) (by norm_num) (by norm_num) (by norm_num)
      (by norm_num) (by norm_num)
  · exact containment_fraction_properties.2.2.1 ⟨10, 0, 2, 2⟩ ⟨0, 0, 4, 4⟩
      (Or.inr (Or.inl (by norm_num)))
  · exact containment_fraction_properties.2.2.2.2 ⟨1, 1, 0, 5⟩ ⟨0, 0, 4, 4⟩ (99 / 100)
      (by norm_num)

/-- A minimal element-node datum with the given node name and attributes,
used to build concrete example nodes. -/
def elemData (name : String) (attrs : AttrMap) : RawData :=
  { node_type := .elementNode, node_name := name, node_value := none,
    attributes := some attrs, backend_node_id := 0, node_id := 0,
    snapshot_node := none, is_actually_scrollable := false, is_scrollable := false,
    should_show_scroll_info := false, shadow_root_type := none, ax_node := none,
    scroll_info_text := none }

/-- C9: for every input element of type `range`, the synthesizer produces
exactly one slider descriptor named "Value" whose `valuemin`/`valuemax` are
the decimal parses of the `min`/`max` attributes, falling back to `0`
(resp. `100`) when the attribute is missing or fails to parse, and sets the
compound flag; the computation is total, so no exception escapes. -/
theorem range_input_compound (n : RawNode)
    (htag : n.data.tag_name = "input")
    (hattrs : n.data.attrsTruthy = true)
    (htype : n.data.getAttr "type" = some "range") :
    add_compound_components n =
      ([CompoundChild.basic "slider" "Value"
          (some (match n.data.getAttr "min" with
                 | some s => (parseDecimal s).getD 0
                 | none => 0))
          (some (match n.data.getAttr "max" with
                 | some s => (parseDecimal s).getD 100
                 | none => 100))
          none],
       true) := by
  have hmin : safe_parse_number (n.data.getAttrD "min" "0") 0 =
      (match n.data.getAttr "min" with
       | some s => (parseDecimal s).getD 0
       | none => 0) := by
    cases h : n.data.getAttr "min" with
    | none => simp [RawData.getAttrD, h]; decide
    | some s => simp [RawData.getAttrD, h, safe_parse_number]
  have hmax : safe_parse_number (n.data.getAttrD "max" "100") 100 =
      (match n.data.getAttr "max" with
       | some s => (parseDecimal s).getD 100
       | none => 100) := by
    cases h : n.data.getAttr "max" with
    | none => simp [RawData.getAttrD, h]; decide
    | some s => simp [RawData.getAttrD, h, safe_parse_number]
  obtain ⟨m, hm, hget⟩ : ∃ m, n.data.attributes = some m ∧ amGet m "type" = some "range" := by
    cases h : n.data.attributes with
    | none => rw [RawData.getAttr, h] at htype; simp at htype
    | some m =>
        refine ⟨m, rfl, ?_⟩
        rw [RawData.getAttr, h] at htype
        simpa using htype
  rw [← hmin, ← hmax]
  have hit : inputTypeOf n.data = "range" := by simp [inputTypeOf, hm, hget]
  simp [add_compound_components, htag, hattrs, hm, hget, compoundInputTypes,
    RawData.getAttr, inputCompound, hit]

/-- C9 witness: `<input type="range" min="10" max="50">` yields a single
slider with bounds `10` and `50`; a malformed `min="abc"` falls back to `0`. -/
theorem range_input_compound_witness :
    add_compound_components
        (.mk (elemData "INPUT" [("type", "range"), ("min", "10"), ("max", "50")]) [] [] none) =
      ([CompoundChild.basic "slider" "Value" (some 10) (some 50) none], true) ∧
    add_compound_components
        (.mk (elemData "INPUT" [("type", "range"), ("min", "abc")]) [] [] none) =
      ([CompoundChild.basic "slider" "Value" (some 0) (some 100) none], true) := by
  constructor
  · rw [range_input_compound
      (.mk (elemData "INPUT" [("type", "range"), ("min", "10"), ("max", "50")]) [] [] none)
      (by decide) (by decide) (by decide)]
    decide
  · rw [range_input_compound
      (.mk (elemData "INPUT" [("type", "range"), ("min", "abc")]) [] [] none)
      (by decide) (by decide) (by decide)]
    decide

/-- Descriptors synthesized for `input` elements never carry a format hint. -/
theorem inputCompound_no_hint (d : RawData) (c : CompoundChild)
    (hc : c ∈ (inputCompound d).1) : c.format_hint = none := by
  unfold inputCompound at hc
  repeat' split at hc
  all_goals fin_cases hc <;> rfl

/-- Every synthesized descriptor either carries no format hint, or is the
select listbox carrying exactly the hint inferred by the option extractor. -/
theorem compound_format_hint_source (n : RawNode) (c : CompoundChild)
    (hc : c ∈ (add_compound_components n).1) :
    c.format_hint = none ∨
      ∃ info, extract_select_options n = some info ∧ c.format_hint = info.format_hint := by
  unfold add_compound_components at hc
  repeat' split at hc
  all_goals try exact absurd hc (List.not_mem_nil c)
  all_goals try exact Or.inl (inputCompound_no_hint _ c hc)
  all_goals try (fin_cases hc <;> exact Or.inl rfl)
  unfold selectCompound at hc
  cases hE : extract_select_options n with
  | none =>
      rw [hE] at hc
      dsimp only at hc
      fin_cases hc <;> exact Or.inl rfl
  | some info =>
      rw [hE] at hc
      dsimp only at hc
      fin_cases hc
      · exact Or.inl rfl
      · exact Or.inr ⟨info, rfl, rfl⟩

/-- A format hint is only ever inferred when at least two option values were
collected. -/
theorem extract_hint_needs_two (n : RawNode) (info : SelectOptionsInfo)
    (h : extract_select_options n = some info) (hs : info.format_hint.isSome = true) :
    2 ≤ (collectOptionsList n.children).length := by
  unfold extract_select_options at h
  split at h
  · simp at h
  · dsimp only at h
    split at h
    · simp at h
    · injection h with h2
      subst h2
      dsimp only at hs
      unfold inferFormatHint at hs
      split at hs
      · rename_i hlen
        simpa using hlen
      · simp at hs

/-- C10: a select whose recursive option collection yields fewer than two
option values never receives a `format_hint` on any of its synthesized
descriptors — equivalently, any descriptor carrying a hint implies at least
two collected option values. -/
theorem select_format_hint_needs_two_values (n : RawNode) (c : CompoundChild)
    (hc : c ∈ (add_compound_components n).1)
    (hh : c.format_hint.isSome = true) :
    2 ≤ (collectOptionsList n.children).length := by
  rcases compound_format_hint_source n c hc with h | ⟨info, hinfo, hf⟩
  · rw [h] at hh
    simp at hh
  · rw [hf] at hh
    exact extract_hint_needs_two n info hinfo hh

/-- A minimal element-node datum with an accessibility record attached. -/
def elemDataAx (name : String) (attrs : AttrMap) (ax : AXNode) : RawData :=
  { node_type := .elementNode, node_name := name, node_value := none,
    attributes := some attrs, backend_node_id := 0, node_id := 0,
    snapshot_node := none, is_actually_scrollable := false, is_scrollable := false,
    should_show_scroll_info := false, shadow_root_type := none, ax_node := some ax,
    scroll_info_text := none }

/-- A concrete `<select>` with two numeric-valued options. -/
def exampleSelect : RawNode :=
  .mk (elemDataAx "SELECT" [] ⟨none, none, some [1]⟩)
    [.mk (elemData "OPTION" [("value", "1")]) [] [] none,
     .mk (elemData "OPTION" [("value", "2")]) [] [] none] [] none

set_option maxRecDepth 2000 in
/-- C10 witness: a `<select>` with two numeric options gets the "numeric"
hint, and indeed two option values were collected. -/
theorem select_format_hint_needs_two_values_witness :
    2 ≤ (collectOptionsList exampleSelect.children).length := by
  have hopts : collectOptionsList
      [.mk (elemData "OPTION" [("value", "1")]) [] [] none,
       .mk (elemData "OPTION" [("value", "2")]) [] [] none] =
      [⟨"", "1"⟩, ⟨"", "2"⟩] := by
    simp [collectOptions, collectOptionsList, elemData, RawNode.children,
      RawData.tag_name, pyLower, getDirectTextContent, amContains, amGet,
      pyStrip, pyStripChars, optStrTruthy]
  have hext : extract_select_options exampleSelect =
      some ⟨2, ["1", "2"], some "numeric"⟩ := by
    simp [extract_select_options, exampleSelect, elemDataAx, RawNode.children, hopts,
      truncateOption, pyTake, inferFormatHint, pyIsDigit]
    constructor <;> rfl
  have htag : exampleSelect.data.tag_name = "select" := by
    simp [exampleSelect, elemDataAx, RawNode.data, RawData.tag_name, pyLower]
  have hax : axChildIdsTruthy exampleSelect.data = true := by
    simp [exampleSelect, elemDataAx, RawNode.data, axChildIdsTruthy]
  have hmem : (add_compound_components exampleSelect).1 =
      [CompoundChild.basic "button" "Dropdown Toggle" none none none,
       { role := "listbox", name := "Options", valuemin := none, valuemax := none,
         valuenow := none, options_count := some 2, first_options := some ["1", "2"],
         format_hint := some "numeric" }] := by
    simp [add_compound_components, selectCompound, htag, hax, hext]
  refine select_format_hint_needs_two_values exampleSelect
    { role := "listbox", name := "Options", valuemin := none, valuemax := none,
      valuenow := none, options_count := some 2, first_options := some ["1", "2"],
      format_hint := some "numeric" } ?_ ?_
  · rw [hmem]
    exact List.mem_cons_of_mem _ (List.mem_singleton.mpr rfl)
  · rfl

/-- A simplified tree node (`SimplifiedNode`): wraps the data of exactly one
raw node and owns its simplified children, plus the derived flags set during
the pipeline.  `compound_children` models the `_compound_children` list the
synthesizer attaches to the wrapped raw node. -/
inductive SNode where
  | mk (raw : RawData) (children : List SNode)
      (is_shadow_host : Bool) (is_compound_component : Bool)
      (is_interactive : Bool) (is_new : Bool)
      (excluded_by_parent : Bool) (ignored_by_paint_order : Bool)
      (should_display : Bool) (compound_children : List CompoundChild)

/-- The wrapped raw node's data (`original_node`). -/
def SNode.raw : SNode → RawData
  | .mk r _ _ _ _ _ _ _ _ _ => r

/-- The simplified children. -/
def SNode.children : SNode → List SNode
  | .mk _ c _ _ _ _ _ _ _ _ => c

/-- The `is_shadow_host` flag. -/
def SNode.is_shadow_host : SNode → Bool
  | .mk _ _ b _ _ _ _ _ _ _ => b

/-- The `is_compound_component` flag. -/
def SNode.is_compound_component : SNode → Bool
  | .mk _ _ _ b _ _ _ _ _ _ => b

/-- The `is_interactive` flag. -/
def SNode.is_interactive : SNode → Bool
  | .mk _ _ _ _ b _ _ _ _ _ => b

/-- The `is_new` flag. -/
def SNode.is_new : SNode → Bool
  | .mk _ _ _ _ _ b _ _ _ _ => b

/-- The `excluded_by_parent` flag. -/
def SNode.excluded_by_parent : SNode → Bool
  | .mk _ _ _ _ _ _ b _ _ _ => b

/-- The `ignored_by_paint_order` flag. -/
def SNode.ignored_by_paint_order : SNode → Bool
  | .mk _ _ _ _ _ _ _ b _ _ => b

/-- The `should_display` flag. -/
def SNode.should_display : SNode → Bool
  | .mk _ _ _ _ _ _ _ _ b _ => b

/-- The compound-child descriptors attached to the wrapped raw node. -/
def SNode.compound_children : SNode → List CompoundChild
  | .mk _ _ _ _ _ _ _ _ _ cc => cc

/-- The ephemeral propagating-bounds value threaded through the containment
pass (`PropagatingBounds`). -/
structure PropagatingBounds where
  tag : String
  bounds : DOMRect
  node_id : ℕ
  depth : ℕ
deriving DecidableEq, Repr

/-- `PROPAGATING_ELEMENTS`: the (tag, role) patterns whose bounds propagate
to all descendants; the duplicated input/combobox entry is kept as in the
source. -/
def PROPAGATING_ELEMENTS : List (String × Option String) :=
  [("a", none), ("button", none),
   ("div", some "button"), ("div", some "combobox"),
   ("span", some "button"), ("span", some "combobox"),
   ("input", some "combobox"), ("input", some "combobox")]

/-- `_is_propagating_element`: the element's tag/role pair satisfies one of
the propagating patterns (a `none` pattern role matches any role). -/
def is_propagating_element (tag : String) (role : Option String) : Bool :=
  PROPAGATING_ELEMENTS.any fun p => p.1 == tag && (p.2.isNone || p.2 == role)

/-- `_should_exclude_child`: whether a candidate node is collapsed under the
active propagating bounds.  Only fields of the wrapped raw node are
consulted, which is made explicit by taking the `RawData` directly. -/
def should_exclude_child (raw : RawData) (active_bounds : PropagatingBounds)
    (containment_threshold : ℚ) : Bool :=
  if raw.node_type = NodeKind.textNode then false
  else
    match raw.snapshot_node with
    | none => false
    | some snap =>
        match snap.bounds with
        | none => false
        | some child_bounds =>
            if ¬ is_contained child_bounds active_bounds.bounds containment_threshold then
              false
            else if ["input", "select", "textarea", "label"].contains (pyLower raw.tag_name) then
              false
            else if is_propagating_element (pyLower raw.tag_name) (raw.getAttr "role") then
              false
            else if (match raw.attributes with
                     | some m => amContains m "onclick"
                     | none => false) then
              false
            else if (match raw.getAttr "aria-label" with
                     | some s => s ≠ "" && pyStrip s ≠ ""
                     | none => false) then
              false
            else if (match raw.getAttr "role" with
                     | some r => ["button", "link", "checkbox", "radio", "tab",
                                  "menuitem", "option"].contains r
                     | none => false) then
              false
            else true

/-- Whether the active bounds (when present) exclude a node with this raw
data — the guard `active_bounds and self._should_exclude_child(...)`. -/
def boundsExcludes (θ : ℚ) (raw : RawData) : Option PropagatingBounds → Bool
  | some b => should_exclude_child raw b θ
  | none => false

/-- The new propagating-bounds scope a node starts, when it matches a
propagating pattern and has a live layout rectangle. -/
def newBoundsFor (raw : RawData) (depth : ℕ) : Option PropagatingBounds :=
  if is_propagating_element (pyLower raw.tag_name)
      (match raw.attributes with | some m => amGet m "role" | none => none) then
    match raw.snapshot_node with
    | some snap =>
        match snap.bounds with
        | some b => some ⟨pyLower raw.tag_name, b, raw.node_id, depth⟩
        | none => none
    | none => none
  else none

/-- `new_bounds if new_bounds else active_bounds`. -/
def propagateChoice (nb ab : Option PropagatingBounds) : Option PropagatingBounds :=
  match nb with
  | some b => some b
  | none => ab

mutual

/-- `_filter_tree_recursive`: mark `excluded_by_parent` under active bounds
(never clearing it), start a new propagating scope on propagating elements,
and recurse into all children with whichever bounds are in force. -/
def filter_tree_recursive (θ : ℚ) : SNode → Option PropagatingBounds → ℕ → SNode
  | .mk raw cs f1 f2 f3 f4 excl ign disp cc, active_bounds, depth =>
      .mk raw
        (filterList θ cs (propagateChoice (newBoundsFor raw depth) active_bounds) (depth + 1))
        f1 f2 f3 f4
        (if boundsExcludes θ raw active_bounds then true else excl)
        ign disp cc
termination_by n => sizeOf n
decreasing_by all_goals (simp_wf; try omega)

/-- The containment pass over a list of sibling nodes. -/
def filterList (θ : ℚ) : List SNode → Option PropagatingBounds → ℕ → List SNode
  | [], _, _ => []
  | c :: cs, b, depth => filter_tree_recursive θ c b depth :: filterList θ cs b depth
termination_by l => sizeOf l
decreasing_by all_goals (simp_wf; try omega)

end

/-- `_apply_bounding_box_filtering`: run the containment pass from the root
with no active bounds at depth 0 (the logging side channel is dropped). -/
def apply_bounding_box_filtering (θ : ℚ) : Option SNode → Option SNode
  | none => none
  | some n => some (filter_tree_recursive θ n none 0)

mutual

/-- One containment pass is idempotent on a single node, under any incoming
bounds and depth. -/
theorem filter_tree_recursive_idem (θ : ℚ) (n : SNode) (b : Option PropagatingBounds)
    (d : ℕ) :
    filter_tree_recursive θ (filter_tree_recursive θ n b d) b d =
      filter_tree_recursive θ n b d := by
  cases n with
  | mk raw cs f1 f2 f3 f4 excl ign disp cc =>
      simp only [filter_tree_recursive, SNode.mk.injEq, true_and, and_true]
      constructor
      · exact filterList_idem θ cs (propagateChoice (newBoundsFor raw d) b) (d + 1)
      · cases hb : boundsExcludes θ raw b <;> simp [hb]
termination_by sizeOf n
decreasing_by all_goals (simp_wf; try omega)

/-- One containment pass is idempotent on a list of siblings. -/
theorem filterList_idem (θ : ℚ) (l : List SNode) (b : Option PropagatingBounds) (d : ℕ) :
    filterList θ (filterList θ l b d) b d = filterList θ l b d := by
  cases l with
  | nil => simp [filterList]
  | cons c cs =>
      simp only [filterList]
      rw [filter_tree_recursive_idem θ c b d, filterList_idem θ cs b d]
termination_by sizeOf l
decreasing_by all_goals (simp_wf; try omega)

end

/-- C5: the containment filter is idempotent — applying
`_apply_bounding_box_filtering` a second time with the same threshold
returns the first application's tree unchanged, so no node gains
`excluded_by_parent` that did not already have it. -/
theorem bounding_box_filtering_idempotent (θ : ℚ) (t : Option SNode) :
    apply_bounding_box_filtering θ (apply_bounding_box_filtering θ t) =
      apply_bounding_box_filtering θ t := by
  cases t with
  | none => rfl
  | some n =>
      simp only [apply_bounding_box_filtering]
      rw [filter_tree_recursive_idem]

/-- Python `str.startswith(p)`. -/
def pyStartsWith (s p : String) : Bool := p.toList.isPrefixOf s.toList

/-- `DISABLED_ELEMENTS`: tags rejected outright by the simplifier. -/
def DISABLED_ELEMENTS : List String :=
  ["style", "script", "head", "meta", "link", "title"]

/-- `SVG_ELEMENTS`: decorative SVG child tags rejected outright. -/
def SVG_ELEMENTS : List String :=
  ["path", "rect", "g", "circle", "ellipse", "line", "polyline", "polygon",
   "use", "defs", "clipPath", "mask", "pattern", "image", "text", "tspan"]

/-- The effective exclusion attribute value chosen by the simplifier: the
session-specific `data-browser-use-exclude-{session_id}` value when a
session id was supplied and that value is truthy, otherwise the legacy
`data-browser-use-exclude` value. -/
def effectiveExcludeAttr (session_id : Option String) (attributes : AttrMap) : Option String :=
  let e1 : Option String :=
    match session_id with
    | some sid => if sid ≠ "" then amGet attributes ("data-browser-use-exclude-" ++ sid) else none
    | none => none
  if optStrTruthy e1 then e1 else amGet attributes "data-browser-use-exclude"

/-- The simplifier's exclusion-attribute check: reject when the effective
exclusion value case-insensitively equals "true". -/
def excludedByAttr (session_id : Option String) (attributes : AttrMap) : Bool :=
  match effectiveExcludeAttr session_id attributes with
  | some s => pyLower s == "true"
  | none => false

/-- A freshly created simplified node with default flags (only the wrapped
data and children supplied, as `SimplifiedNode(original_node=..., children=...)`). -/
def mkPlainSNode (d : RawData) (kids : List SNode) : SNode :=
  .mk d kids false false false false false false true []

theorem sizeOf_list_append {α : Type} [SizeOf α] (cs ss : List α) :
    sizeOf (cs ++ ss) + 1 = sizeOf cs + sizeOf ss := by
  induction cs with
  | nil => simp only [List.nil_append, List.nil.sizeOf_spec]; omega
  | cons c cs ih => simp only [List.cons_append, List.cons.sizeOf_spec]; omega

theorem list_sizeOf_pos {α : Type} [SizeOf α] (l : List α) : 0 < sizeOf l := by
  cases l with
  | nil => simp
  | cons a l => simp only [List.cons.sizeOf_spec]; omega

theorem append_sizeOf_lt {α : Type} [SizeOf α] (cs ss : List α) :
    sizeOf (cs ++ ss) < sizeOf cs + sizeOf ss := by
  have h := sizeOf_list_append cs ss
  have h1 := list_sizeOf_pos ss
  omega

theorem casr_sizeOf_lt (d : RawData) (cs ss : List RawNode) (cd : Option RawNode) :
    sizeOf (cs ++ ss) < 1 + sizeOf d + sizeOf cs + sizeOf ss + sizeOf cd := by
  have h := append_sizeOf_lt cs ss
  omega

/-- `content_document.children_nodes or []`. -/
def contentChildren : Option RawNode → List RawNode
  | some doc => doc.children
  | none => []

theorem contentChildren_sizeOf (cd : Option RawNode) :
    sizeOf (contentChildren cd) ≤ sizeOf cd := by
  cases cd with
  | none => simp [contentChildren]
  | some doc =>
      cases doc with
      | mk d cs ss c =>
          simp only [contentChildren, RawNode.children, Option.some.sizeOf_spec,
            RawNode.mk.sizeOf_spec]
          omega

theorem contentChildren_lt (d : RawData) (cs ss : List RawNode) (cd : Option RawNode) :
    sizeOf (contentChildren cd) < 1 + sizeOf d + sizeOf cs + sizeOf ss + sizeOf cd := by
  have h := contentChildren_sizeOf cd
  have h1 := list_sizeOf_pos cs
  omega

mutual

/-- `_create_simplified_tree`: copy semantically relevant nodes into the
simplified tree, flattening documents, shadow roots and frame documents.
The `depth` argument of the source is bookkeeping only and is omitted. -/
def create_simplified_tree (sid : Option String) : RawNode → Option SNode
  | .mk d cs ss cd =>
    match d.node_type with
    | NodeKind.documentNode => simplifyFirst sid (cs ++ ss)
    | NodeKind.documentFragmentNode =>
        let kids := simplifyList sid (cs ++ ss)
        if ¬kids.isEmpty then some (mkPlainSNode d kids) else some (mkPlainSNode d [])
    | NodeKind.elementNode =>
        if DISABLED_ELEMENTS.contains (pyLower d.node_name) then none
        else if SVG_ELEMENTS.contains (pyLower d.node_name) then none
        else if excludedByAttr sid (d.attributes.getD []) then none
        else if (d.node_name = "IFRAME" ∨ d.node_name = "FRAME") ∧ cd.isSome then
          some (mkPlainSNode d (simplifyList sid (contentChildren cd)))
        else simplifyElementRest sid d cs ss cd
    | NodeKind.textNode =>
        if (d.snapshot_node.isSome && d.is_visible) && optStrTruthy d.node_value &&
            pyStrip (d.node_value.getD "") ≠ "" &&
            (pyStrip (d.node_value.getD "")).length > 1 then
          some (mkPlainSNode d [])
        else none
termination_by n => sizeOf n
decreasing_by
  all_goals simp_wf
  all_goals first
    | omega
    | exact casr_sizeOf_lt _ _ _ _
    | exact contentChildren_lt _ _ _ _

/-- The non-frame element handling of `_create_simplified_tree`: visibility,
scrollability and shadow-host computation, the keep/drop decision, and the
compound-component synthesis. -/
def simplifyElementRest (sid : Option String) (d : RawData) (cs ss : List RawNode)
    (cd : Option RawNode) : Option SNode :=
  let is_visible0 := d.is_visible
  let is_scrollable := d.is_actually_scrollable
  let has_shadow_content := ¬(cs ++ ss).isEmpty
  let is_shadow_host :=
    (cs ++ ss).any fun c => c.data.node_type = NodeKind.documentFragmentNode
  let is_visible1 :=
    if ¬is_visible0 && d.attrsTruthy &&
        ((d.attributes.getD []).any fun kv =>
          pyStartsWith kv.1 "aria-" || pyStartsWith kv.1 "pseudo") then true
    else is_visible0
  let is_visible := if ¬is_visible1 && d.isFileInput then true else is_visible1
  if is_visible || is_scrollable || has_shadow_content || is_shadow_host then
    let kids := simplifyList sid (cs ++ ss)
    let cinfo := add_compound_components (.mk d cs ss cd)
    let node' := SNode.mk d kids is_shadow_host cinfo.2 false false false false true cinfo.1
    if is_shadow_host && ¬kids.isEmpty then some node'
    else if is_visible || is_scrollable || ¬kids.isEmpty then some node'
    else none
  else none
termination_by sizeOf cs + sizeOf ss
decreasing_by
  all_goals simp_wf
  all_goals exact append_sizeOf_lt _ _

/-- Simplification of a list of sibling nodes, keeping the non-`none`
results in order. -/
def simplifyList (sid : Option String) : List RawNode → List SNode
  | [] => []
  | c :: cs =>
      match create_simplified_tree sid c with
      | some s => s :: simplifyList sid cs
      | none => simplifyList sid cs
termination_by l => sizeOf l
decreasing_by all_goals (simp_wf; try omega)

/-- The first non-`none` simplification among a list of nodes (the document
unwrapping loop). -/
def simplifyFirst (sid : Option String) : List RawNode → Option SNode
  | [] => none
  | c :: cs =>
      match create_simplified_tree sid c with
      | some s => some s
      | none => simplifyFirst sid cs
termination_by l => sizeOf l
decreasing_by all_goals (simp_wf; try omega)

end

/-- A visible element-node datum (live snapshot with `is_visible = true`). -/
def elemDataVis (name : String) (attrs : AttrMap) : RawData :=
  { node_type := .elementNode, node_name := name, node_value := none,
    attributes := some attrs, backend_node_id := 0, node_id := 0,
    snapshot_node := some ⟨true, none⟩, is_actually_scrollable := false,
    is_scrollable := false, should_show_scroll_info := false,
    shadow_root_type := none, ax_node := none, scroll_info_text := none }

/-- C6 (amended): an element node whose effective exclusion value — the
session-specific attribute's value when a session id was supplied and that
value is truthy, otherwise the legacy attribute's value — case-insensitively
equals "true" is always rejected by the simplifier; when the effective value
does not equal "true" the exclusion check never rejects the node (here
witnessed for nodes not rejected by the disabled/SVG tag rules and visible,
which are kept). -/
theorem exclusion_attribute_check (sid : Option String) (n : RawNode)
    (helem : n.data.node_type = NodeKind.elementNode) :
    (excludedByAttr sid (n.data.attributes.getD []) = true →
        create_simplified_tree sid n = none)
    ∧ (excludedByAttr sid (n.data.attributes.getD []) = false →
        DISABLED_ELEMENTS.contains (pyLower n.data.node_name) = false →
        SVG_ELEMENTS.contains (pyLower n.data.node_name) = false →
        n.data.is_visible = true →
        (create_simplified_tree sid n).isSome = true) := by
  cases n with
  | mk d cs ss cd =>
      simp only [RawNode.data] at helem ⊢
      constructor
      · intro hexcl
        simp [create_simplified_tree, helem, hexcl]
      · intro hexcl hdis hsvg hvis
        simp only [create_simplified_tree, helem, hexcl, hdis, hsvg]
        by_cases hif : (d.node_name = "IFRAME" ∨ d.node_name = "FRAME") ∧ cd.isSome = true
        · simp [hif]
        · simp [hif, simplifyElementRest, hvis]

/-- C6 witness: a visible `div` carrying the legacy attribute with value
"TRUE" (case-insensitive) is rejected; a visible `div` with no attributes is
kept. -/
theorem exclusion_attribute_check_witness :
    create_simplified_tree none
        (.mk (elemDataVis "DIV" [("data-browser-use-exclude", "TRUE")]) [] [] none) = none ∧
    (create_simplified_tree none (.mk (elemDataVis "DIV" []) [] [] none)).isSome = true := by
  constructor
  · exact (exclusion_attribute_check none
      (.mk (elemDataVis "DIV" [("data-browser-use-exclude", "TRUE")]) [] [] none)
      (by decide)).1 (by decide)
  · exact (exclusion_attribute_check none
      (.mk (elemDataVis "DIV" []) [] [] none)
      (by decide)).2 (by decide) (by decide) (by decide) (by decide)

/-- C6 counterexample: under session id "s1", a visible element whose
session-specific exclusion attribute has the truthy value "false" and whose
legacy exclusion attribute is present with value "true" is NOT rejected —
refuting "rejected exactly when the session-specific or the legacy exclusion
attribute is present with a value case-insensitively equal to true". -/
theorem session_exclusion_shadowing_counterexample :
    amGet [("data-browser-use-exclude-s1", "false"), ("data-browser-use-exclude", "true")]
        "data-browser-use-exclude" = some "true" ∧
    (create_simplified_tree (some "s1")
        (.mk (elemDataVis "DIV"
          [("data-browser-use-exclude-s1", "false"), ("data-browser-use-exclude", "true")])
          [] [] none)).isSome = true := by
  refine ⟨by decide, ?_⟩
  simp [create_simplified_tree, simplifyElementRest, elemDataVis, RawData.tag_name,
    RawNode.data, pyLower, excludedByAttr, effectiveExcludeAttr, amGet, optStrTruthy,
    DISABLED_ELEMENTS, SVG_ELEMENTS, RawData.is_visible]

mutual

/-- `_optimize_tree` on a present node: recompute children bottom-up, then
keep the node iff visible, actually scrollable, a text node, still having
children, or a file input. -/
def optimize_tree_node : SNode → Option SNode
  | .mk raw cs f1 f2 f3 f4 f5 f6 f7 cc =>
      let kids := optimizeList cs
      if (raw.snapshot_node.isSome && raw.is_visible) || raw.is_actually_scrollable ||
          decide (raw.node_type = NodeKind.textNode) || !kids.isEmpty || raw.isFileInput then
        some (.mk raw kids f1 f2 f3 f4 f5 f6 f7 cc)
      else none
termination_by n => sizeOf n
decreasing_by all_goals (simp_wf; try omega)

/-- Bottom-up optimization of a list of siblings, keeping survivors in
order. -/
def optimizeList : List SNode → List SNode
  | [] => []
  | c :: cs =>
      match optimize_tree_node c with
      | some s => s :: optimizeList cs
      | none => optimizeList cs
termination_by l => sizeOf l
decreasing_by all_goals (simp_wf; try omega)

end

/-- `_optimize_tree` including the `if not node` guard. -/
def optimize_tree : Option SNode → Option SNode
  | none => none
  | some n => optimize_tree_node n

mutual

/-- `_has_interactive_descendants`: some descendant (strictly below the
node) satisfies the clickability oracle. -/
def has_interactive_descendants (oracle : RawData → Bool) : SNode → Bool
  | .mk _ cs _ _ _ _ _ _ _ _ => hasInteractiveList oracle cs
termination_by n => sizeOf n
decreasing_by all_goals (simp_wf; try omega)

/-- The child loop of `_has_interactive_descendants`. -/
def hasInteractiveList (oracle : RawData → Bool) : List SNode → Bool
  | [] => false
  | c :: cs =>
      (oracle c.raw || has_interactive_descendants oracle c) || hasInteractiveList oracle cs
termination_by l => sizeOf l
decreasing_by all_goals (simp_wf; try omega)

end

/-- The per-node addressability decision of
`_assign_interactive_indices_and_mark_new_nodes`: a scrollable node is made
interactive iff it has no interactive descendants; otherwise the node is
made interactive iff the oracle accepts it and it is visible or a file
input. -/
def shouldMakeInteractive (oracle : RawData → Bool) (n : SNode) : Bool :=
  if n.raw.is_actually_scrollable then !(has_interactive_descendants oracle n)
  else oracle n.raw && ((n.raw.snapshot_node.isSome && n.raw.is_visible) || n.raw.isFileInput)

/-- The selector map (AddressTable): backend id → raw node data, modelled as
an insertion-ordered association list with dict update semantics. -/
abbrev SMap := List (ℕ × RawData)

/-- Dict update for the selector map. -/
def smInsert (m : SMap) (k : ℕ) (v : RawData) : SMap :=
  if m.any (fun kv => kv.1 == k) then m.map fun kv => if kv.1 == k then (k, v) else kv
  else m ++ [(k, v)]

/-- The keys of the selector map. -/
def smKeys (m : SMap) : List ℕ := m.map (·.1)

/-- `{node.backend_node_id for node in previous.values()}`. -/
def prevBackendIds (m : SMap) : List ℕ := m.map fun kv => kv.2.backend_node_id

/-- Python truthiness of the optional previous selector map (`None` and the
empty dict are both falsy). -/
def prevTruthy : Option SMap → Bool
  | none => false
  | some [] => false
  | some (_ :: _) => true

/-- The `is_new` update for a node just made interactive. -/
def newFlagFor (prev : Option SMap) (comp : Bool) (bid : ℕ) (old : Bool) : Bool :=
  if comp then true
  else if prevTruthy prev then
    if !((prevBackendIds (prev.getD [])).contains bid) then true else old
  else old

mutual

/-- `_assign_interactive_indices_and_mark_new_nodes` on one node, threading
the selector map being built: skip excluded/paint-ignored nodes, decide
addressability, record the backend id, set the novelty flag, then recurse
into the children. -/
def assignNode (oracle : RawData → Bool) (prev : Option SMap) :
    SNode → SMap → SNode × SMap
  | n@(.mk raw cs sh comp inter isnew excl ign disp cc), m =>
      if !excl && !ign then
        if shouldMakeInteractive oracle n then
          let m' := smInsert m raw.backend_node_id raw
          let isnew' := newFlagFor prev comp raw.backend_node_id isnew
          let r := assignList oracle prev cs m'
          (.mk raw r.1 sh comp true isnew' excl ign disp cc, r.2)
        else
          let r := assignList oracle prev cs m
          (.mk raw r.1 sh comp inter isnew excl ign disp cc, r.2)
      else
        let r := assignList oracle prev cs m
        (.mk raw r.1 sh comp inter isnew excl ign disp cc, r.2)
termination_by n => sizeOf n
decreasing_by all_goals (simp_wf; try omega)

/-- The child loop of the assignment pass, threading the map left to
right. -/
def assignList (oracle : RawData → Bool) (prev : Option SMap) :
    List SNode → SMap → List SNode × SMap
  | [], m => ([], m)
  | c :: cs, m =>
      let r := assignNode oracle prev c m
      let r' := assignList oracle prev cs r.2
      (r.1 :: r'.1, r'.2)
termination_by l => sizeOf l
decreasing_by all_goals (simp_wf; try omega)

end

/-- The assignment pass including the `if not node` guard, starting from the
freshly reset empty selector map. -/
def assign_interactive (oracle : RawData → Bool) (prev : Option SMap) :
    Option SNode → Option SNode × SMap
  | none => (none, [])
  | some n =>
      let r := assignNode oracle prev n []
      (some r.1, r.2)

/-- `serialize_accessible_elements`: the composed pipeline.  The paint-order
annotator (external collaborator) is a parameter `paintMark`; timing
bookkeeping is dropped. -/
def serialize_accessible_elements
    (oracle : RawData → Bool) (paintMark : SNode → SNode)
    (sid : Option String) (prev : Option SMap)
    (enable_bbox : Bool) (θ : ℚ) (paint_flag : Bool)
    (root : RawNode) : Option SNode × SMap :=
  let t1 := create_simplified_tree sid root
  let t2 := if paint_flag then t1.map paintMark else t1
  let t3 := optimize_tree t2
  let t4 := if enable_bbox && t3.isSome then apply_bounding_box_filtering θ t3 else t3
  assign_interactive oracle prev t4

mutual

/-- All subtree occurrences of a simplified tree, in preorder. -/
def subtrees : SNode → List SNode
  | n@(.mk _ cs _ _ _ _ _ _ _ _) => n :: subtreesList cs
termination_by n => sizeOf n
decreasing_by all_goals (simp_wf; try omega)

/-- Subtree occurrences of a list of siblings. -/
def subtreesList : List SNode → List SNode
  | [] => []
  | c :: cs => subtrees c ++ subtreesList cs
termination_by l => sizeOf l
decreasing_by all_goals (simp_wf; try omega)

end

/-- The backend ids of all subtree occurrences. -/
def sIds (t : SNode) : List ℕ := (subtrees t).map fun s => s.raw.backend_node_id

/-- No node of the tree carries `is_interactive` or `is_new` yet (the state
of every tree entering the assignment pass). -/
def unassigned (t : SNode) : Prop :=
  ∀ s ∈ subtrees t, s.is_interactive = false ∧ s.is_new = false

theorem subtrees_mk (raw : RawData) (cs : List SNode) (a b c d e f g : Bool)
    (cc : List CompoundChild) :
    subtrees (.mk raw cs a b c d e f g cc) =
      SNode.mk raw cs a b c d e f g cc :: subtreesList cs := by
  simp [subtrees]

theorem mem_subtreesList {s : SNode} {cs : List SNode} :
    s ∈ subtreesList cs ↔ ∃ c ∈ cs, s ∈ subtrees c := by
  induction cs with
  | nil => simp [subtreesList]
  | cons c cs ih => simp [subtreesList, ih]

theorem self_mem_subtrees (t : SNode) : t ∈ subtrees t := by
  cases t with
  | mk raw cs a b c d e f g cc => simp [subtrees_mk]

/-- The assignment pass never changes the wrapped raw data nor the
exclusion/paint/compound flags of the node it processes. -/
theorem assignNode_fields (oracle : RawData → Bool) (prev : Option SMap)
    (t : SNode) (m : SMap) :
    (assignNode oracle prev t m).1.raw = t.raw ∧
    (assignNode oracle prev t m).1.excluded_by_parent = t.excluded_by_parent ∧
    (assignNode oracle prev t m).1.ignored_by_paint_order = t.ignored_by_paint_order ∧
    (assignNode oracle prev t m).1.is_compound_component = t.is_compound_component := by
  cases t with
  | mk raw cs sh comp inter isnew excl ign disp cc =>
      simp only [assignNode]
      repeat' split
      all_goals simp [SNode.raw, SNode.excluded_by_parent, SNode.ignored_by_paint_order,
        SNode.is_compound_component]

mutual

/-- The assignment pass does not change which subtrees the clickability
oracle accepts. -/
theorem assign_hasDesc (oracle : RawData → Bool) (prev : Option SMap)
    (t : SNode) (m : SMap) :
    has_interactive_descendants oracle (assignNode oracle prev t m).1 =
      has_interactive_descendants oracle t := by
  cases t with
  | mk raw cs sh comp inter isnew excl ign disp cc =>
      simp only [assignNode]
      repeat' split
      all_goals simp only [has_interactive_descendants]
      all_goals exact assign_hasDescList oracle prev cs _
termination_by sizeOf t
decreasing_by all_goals (simp_wf; try omega)

/-- List version of `assign_hasDesc`, for any threaded map. -/
theorem assign_hasDescList (oracle : RawData → Bool) (prev : Option SMap)
    (cs : List SNode) (m : SMap) :
    hasInteractiveList oracle (assignList oracle prev cs m).1 =
      hasInteractiveList oracle cs := by
  cases cs with
  | nil => simp [assignList, hasInteractiveList]
  | cons c cs =>
      simp only [assignList, hasInteractiveList]
      rw [(assignNode_fields oracle prev c m).1, assign_hasDesc oracle prev c m,
        assign_hasDescList oracle prev cs (assignNode oracle prev c m).2]
termination_by sizeOf cs
decreasing_by all_goals (simp_wf; try omega)

end

/-- On a node whose `is_new` flag is still clear, the novelty update reduces
to: compound, or a non-empty previous table without this backend id. -/
theorem newFlagFor_false (prev : Option SMap) (comp : Bool) (bid : ℕ) :
    newFlagFor prev comp bid false =
      (comp || (prevTruthy prev && !((prevBackendIds (prev.getD [])).contains bid))) := by
  unfold newFlagFor
  cases comp with
  | true => simp
  | false =>
      cases hp : prevTruthy prev with
      | false => simp [hp]
      | true =>
          cases hco : (prevBackendIds (prev.getD [])).contains bid <;> simp [hp, hco]

/-- The decision formula for both flags, shared by the mutual induction. -/
def flagSpec (oracle : RawData → Bool) (prev : Option SMap) (s : SNode) : Prop :=
  s.is_interactive =
      ((!s.excluded_by_parent && !s.ignored_by_paint_order) &&
        shouldMakeInteractive oracle s) ∧
  s.is_new =
      (((!s.excluded_by_parent && !s.ignored_by_paint_order) &&
        shouldMakeInteractive oracle s) &&
       (s.is_compound_component ||
        (prevTruthy prev && !((prevBackendIds (prev.getD [])).contains s.raw.backend_node_id))))

mutual

/-- After the assignment pass, every subtree occurrence carries exactly the
decided `is_interactive` and `is_new` flags. -/
theorem assign_flags (oracle : RawData → Bool) (prev : Option SMap)
    (t : SNode) (m : SMap) (hun : unassigned t) :
    ∀ s ∈ subtrees (assignNode oracle prev t m).1, flagSpec oracle prev s := by
  cases t with
  | mk raw cs sh comp inter isnew excl ign disp cc =>
      have h0 := hun _ (self_mem_subtrees _)
      simp only [SNode.is_interactive, SNode.is_new] at h0
      obtain ⟨rfl, rfl⟩ : inter = false ∧ isnew = false := h0
      have hunc : ∀ c ∈ cs, unassigned c := by
        intro c hc s hs
        apply hun s
        rw [subtrees_mk]
        exact List.mem_cons_of_mem _ (mem_subtreesList.mpr ⟨c, hc, hs⟩)
      simp only [assignNode]
      split
      · rename_i helig
        split
        · rename_i hsmi
          intro s hs
          rw [subtrees_mk] at hs
          rcases List.mem_cons.mp hs with rfl | hs
          · have hsm : shouldMakeInteractive oracle
                (.mk raw (assignList oracle prev cs
                    (smInsert m raw.backend_node_id raw)).1
                  sh comp true (newFlagFor prev comp raw.backend_node_id false)
                  excl ign disp cc) =
                shouldMakeInteractive oracle
                  (.mk raw cs sh comp false false excl ign disp cc) := by
              simp only [shouldMakeInteractive, SNode.raw, has_interactive_descendants]
              rw [assign_hasDescList oracle prev cs (smInsert m raw.backend_node_id raw)]
            simp only [flagSpec, SNode.is_interactive, SNode.is_new,
              SNode.excluded_by_parent, SNode.ignored_by_paint_order,
              SNode.is_compound_component, SNode.raw]
            rw [hsm, hsmi, newFlagFor_false, helig]
            simp
          · exact assign_flagsList oracle prev cs
              (smInsert m raw.backend_node_id raw) hunc s hs
        · rename_i hsmi
          intro s hs
          rw [subtrees_mk] at hs
          rcases List.mem_cons.mp hs with rfl | hs
          · have hsm : shouldMakeInteractive oracle
                (.mk raw (assignList oracle prev cs m).1
                  sh comp false false excl ign disp cc) =
                shouldMakeInteractive oracle
                  (.mk raw cs sh comp false false excl ign disp cc) := by
              simp only [shouldMakeInteractive, SNode.raw, has_interactive_descendants]
              rw [assign_hasDescList oracle prev cs m]
            have hsmi2 : shouldMakeInteractive oracle
                (.mk raw cs sh comp false false excl ign disp cc) = false := by
              simpa using hsmi
            simp only [flagSpec, SNode.is_interactive, SNode.is_new,
              SNode.excluded_by_parent, SNode.ignored_by_paint_order,
              SNode.is_compound_component, SNode.raw]
            rw [hsm, hsmi2]
            simp
          · exact assign_flagsList oracle prev cs m hunc s hs
      · rename_i helig
        intro s hs
        rw [subtrees_mk] at hs
        rcases List.mem_cons.mp hs with rfl | hs
        · have he : (!excl && !ign) = false := by
            revert helig
            cases excl <;> cases ign <;> simp
          simp only [flagSpec, SNode.is_interactive, SNode.is_new,
            SNode.excluded_by_parent, SNode.ignored_by_paint_order,
            SNode.is_compound_component, SNode.raw]
          rw [he]
          simp
        · exact assign_flagsList oracle prev cs m hunc s hs
termination_by sizeOf t
decreasing_by
  all_goals simp_wf
  all_goals try subst_vars
  all_goals try simp only [SNode.mk.sizeOf_spec, List.cons.sizeOf_spec]
  all_goals try omega

/-- List version of `assign_flags`. -/
theorem assign_flagsList (oracle : RawData → Bool) (prev : Option SMap)
    (cs : List SNode) (m : SMap) (hun : ∀ c ∈ cs, unassigned c) :
    ∀ s ∈ subtreesList (assignList oracle prev cs m).1, flagSpec oracle prev s := by
  cases cs with
  | nil =>
      intro s hs
      simp [assignList, subtreesList] at hs
  | cons c cs =>
      intro s hs
      simp only [assignList, subtreesList] at hs
      rcases List.mem_append.mp hs with hs | hs
      · exact assign_flags oracle prev c m (hun c (by simp)) s hs
      · exact assign_flagsList oracle prev cs (assignNode oracle prev c m).2
          (fun c' hc' => hun c' (by simp [hc'])) s hs
termination_by sizeOf cs
decreasing_by
  all_goals simp_wf
  all_goals try subst_vars
  all_goals try simp only [SNode.mk.sizeOf_spec, List.cons.sizeOf_spec]
  all_goals try omega

end

/-- Key membership after a dict insertion. -/
theorem smKeys_insert (m : SMap) (k' : ℕ) (v : RawData) (k : ℕ) :
    k ∈ smKeys (smInsert m k' v) ↔ k = k' ∨ k ∈ smKeys m := by
  unfold smInsert
  split
  · rename_i hany
    obtain ⟨kv2, hkv2m, hkv2⟩ : ∃ x ∈ m, x.1 = k' := by
      simpa [List.any_eq_true] using hany
    simp only [smKeys, List.map_map, List.mem_map, Function.comp]
    constructor
    · rintro ⟨kv, hkv, hk⟩
      by_cases h : kv.1 = k'
      · left
        simp [h] at hk
        omega
      · right
        simp [h] at hk
        exact ⟨kv, hkv, hk⟩
    · rintro (rfl | hk)
      · exact ⟨kv2, hkv2m, by simp [hkv2]⟩
      · obtain ⟨kv, hkv, rfl⟩ := hk
        by_cases h : kv.1 = k'
        · exact ⟨kv2, hkv2m, by simp [hkv2, h]⟩
        · exact ⟨kv, hkv, by simp [h]⟩
  · simp only [smKeys, List.map_append, List.mem_append]
    simp [or_comm]

mutual

/-- Key membership of the selector map after the assignment pass: a key is
present iff it was already present or some subtree of the output is marked
interactive with that backend id. -/
theorem assign_keys (oracle : RawData → Bool) (prev : Option SMap)
    (t : SNode) (m : SMap) (hun : unassigned t) (k : ℕ) :
    k ∈ smKeys (assignNode oracle prev t m).2 ↔
      k ∈ smKeys m ∨ ∃ s ∈ subtrees (assignNode oracle prev t m).1,
        s.is_interactive = true ∧ s.raw.backend_node_id = k := by
  cases t with
  | mk raw cs sh comp inter isnew excl ign disp cc =>
      have h0 := hun _ (self_mem_subtrees _)
      simp only [SNode.is_interactive, SNode.is_new] at h0
      obtain ⟨rfl, rfl⟩ : inter = false ∧ isnew = false := h0
      have hunc : ∀ c ∈ cs, unassigned c := by
        intro c hc s hs
        apply hun s
        rw [subtrees_mk]
        exact List.mem_cons_of_mem _ (mem_subtreesList.mpr ⟨c, hc, hs⟩)
      simp only [assignNode]
      split
      · split
        · rw [assign_keysList oracle prev cs (smInsert m raw.backend_node_id raw) hunc k,
            smKeys_insert]
          rw [subtrees_mk]
          simp only [List.mem_cons, SNode.is_interactive, SNode.raw]
          constructor
          · rintro ((rfl | hk) | ⟨s, hs, hsi, hsk⟩)
            · exact Or.inr ⟨_, Or.inl rfl, rfl, rfl⟩
            · exact Or.inl hk
            · exact Or.inr ⟨s, Or.inr hs, hsi, hsk⟩
          · rintro (hk | ⟨s, rfl | hs, hsi, hsk⟩)
            · exact Or.inl (Or.inr hk)
            · simp only [SNode.raw] at hsk
              exact Or.inl (Or.inl hsk.symm)
            · exact Or.inr ⟨s, hs, hsi, hsk⟩
        · rw [assign_keysList oracle prev cs m hunc k]
          rw [subtrees_mk]
          simp only [List.mem_cons]
          constructor
          · rintro (hk | ⟨s, hs, hsi, hsk⟩)
            · exact Or.inl hk
            · exact Or.inr ⟨s, Or.inr hs, hsi, hsk⟩
          · rintro (hk | ⟨s, rfl | hs, hsi, hsk⟩)
            · exact Or.inl hk
            · simp [SNode.is_interactive] at hsi
            · exact Or.inr ⟨s, hs, hsi, hsk⟩
      · rw [assign_keysList oracle prev cs m hunc k]
        rw [subtrees_mk]
        simp only [List.mem_cons]
        constructor
        · rintro (hk | ⟨s, hs, hsi, hsk⟩)
          · exact Or.inl hk
          · exact Or.inr ⟨s, Or.inr hs, hsi, hsk⟩
        · rintro (hk | ⟨s, rfl | hs, hsi, hsk⟩)
          · exact Or.inl hk
          · simp [SNode.is_interactive] at hsi
          · exact Or.inr ⟨s, hs, hsi, hsk⟩
termination_by sizeOf t
decreasing_by
  all_goals simp_wf
  all_goals try subst_vars
  all_goals try simp only [SNode.mk.sizeOf_spec, List.cons.sizeOf_spec]
  all_goals try omega

/-- List version of `assign_keys`. -/
theorem assign_keysList (oracle : RawData → Bool) (prev : Option SMap)
    (cs : List SNode) (m : SMap) (hun : ∀ c ∈ cs, unassigned c) (k : ℕ) :
    k ∈ smKeys (assignList oracle prev cs m).2 ↔
      k ∈ smKeys m ∨ ∃ s ∈ subtreesList (assignList oracle prev cs m).1,
        s.is_interactive = true ∧ s.raw.backend_node_id = k := by
  cases cs with
  | nil => simp [assignList, subtreesList]
  | cons c cs =>
      simp only [assignList, subtreesList]
      rw [assign_keysList oracle prev cs (assignNode oracle prev c m).2
        (fun c' hc' => hun c' (by simp [hc'])) k]
      rw [assign_keys oracle prev c m (hun c (by simp)) k]
      constructor
      · rintro ((hk | ⟨s, hs, hsi, hsk⟩) | ⟨s, hs, hsi, hsk⟩)
        · exact Or.inl hk
        · exact Or.inr ⟨s, List.mem_append.mpr (Or.inl hs), hsi, hsk⟩
        · exact Or.inr ⟨s, List.mem_append.mpr (Or.inr hs), hsi, hsk⟩
      · rintro (hk | ⟨s, hs, hsi, hsk⟩)
        · exact Or.inl (Or.inl hk)
        · rcases List.mem_append.mp hs with hs | hs
          · exact Or.inl (Or.inr ⟨s, hs, hsi, hsk⟩)
          · exact Or.inr ⟨s, hs, hsi, hsk⟩
termination_by sizeOf cs
decreasing_by
  all_goals simp_wf
  all_goals try subst_vars
  all_goals try simp only [SNode.mk.sizeOf_spec, List.cons.sizeOf_spec]
  all_goals try omega

end

mutual

/-- `_has_interactive_descendants` equals "some strict descendant satisfies
the clickability predicate". -/
theorem hasDesc_eq_any (oracle : RawData → Bool) (t : SNode) :
    has_interactive_descendants oracle t =
      (subtreesList t.children).any (fun d => oracle d.raw) := by
  cases t with
  | mk raw cs a b c d e f g cc =>
      simp only [has_interactive_descendants, SNode.children]
      exact hasDescList_eq_any oracle cs
termination_by sizeOf t
decreasing_by
  all_goals simp_wf
  all_goals try subst_vars
  all_goals try simp only [SNode.mk.sizeOf_spec, List.cons.sizeOf_spec]
  all_goals try omega

/-- List version of `hasDesc_eq_any`. -/
theorem hasDescList_eq_any (oracle : RawData → Bool) (cs : List SNode) :
    hasInteractiveList oracle cs =
      (subtreesList cs).any (fun d => oracle d.raw) := by
  cases cs with
  | nil => simp [hasInteractiveList, subtreesList]
  | cons c cs =>
      simp only [hasInteractiveList, subtreesList, List.any_append]
      rw [hasDescList_eq_any oracle cs, hasDesc_eq_any oracle c]
      cases c with
      | mk raw cs' a b c' d e f g cc =>
          simp only [subtrees_mk, List.any_cons, SNode.raw, SNode.children, Bool.or_assoc]
termination_by sizeOf cs
decreasing_by
  all_goals simp_wf
  all_goals try subst_vars
  all_goals try simp only [SNode.mk.sizeOf_spec, List.cons.sizeOf_spec]
  all_goals try omega

end

/-- C2: for every node of the assigned tree — eligibility meaning neither
`excluded_by_parent` nor `ignored_by_paint_order` — an actually-scrollable
node is made addressable exactly when no descendant, direct or indirect,
satisfies the clickability predicate, and a non-scrollable node exactly when
the predicate accepts it and it is visible or a file-type input; every
addressable node's backend id is a key of the AddressTable. -/
theorem indexing_decision (oracle : RawData → Bool) (prev : Option SMap)
    (t : SNode) (hun : unassigned t) :
    ∀ s ∈ subtrees (assignNode oracle prev t []).1,
      (s.is_interactive =
        ((!s.excluded_by_parent && !s.ignored_by_paint_order) &&
         (if s.raw.is_actually_scrollable then
            !((subtreesList s.children).any fun d => oracle d.raw)
          else
            oracle s.raw &&
              ((s.raw.snapshot_node.isSome && s.raw.is_visible) || s.raw.isFileInput))))
      ∧ (s.is_interactive = true →
          s.raw.backend_node_id ∈ smKeys (assignNode oracle prev t []).2) := by
  intro s hs
  constructor
  · have hf := (assign_flags oracle prev t [] hun s hs).1
    rw [hf]
    simp only [shouldMakeInteractive, hasDesc_eq_any]
  · intro hsi
    exact (assign_keys oracle prev t [] hun s.raw.backend_node_id).mpr
      (Or.inr ⟨s, hs, hsi, rfl⟩)

/-- The clickability oracle used in concrete examples: buttons only. -/
def exOracle : RawData → Bool := fun d => d.node_name == "BUTTON"

/-- A visible button leaf. -/
def exButton : SNode :=
  .mk (elemDataVis "BUTTON" []) [] false false false false false false true []

/-- A visible non-clickable wrapper over the button. -/
def exTree : SNode :=
  .mk (elemDataVis "DIV" []) [exButton] false false false false false false true []

theorem subtrees_exTree : subtrees exTree = [exTree, exButton] := by
  simp [exTree, exButton, subtrees_mk, subtreesList]

theorem exTree_unassigned : unassigned exTree := by
  intro s hs
  rw [subtrees_exTree] at hs
  simp only [List.mem_cons, List.not_mem_nil, or_false] at hs
  rcases hs with rfl | rfl
  · exact ⟨rfl, rfl⟩
  · exact ⟨rfl, rfl⟩

/-- C2 witness: the decision formula evaluated on the example wrapper node
(not scrollable, oracle-rejected, hence not addressable). -/
theorem indexing_decision_witness :
    (assignNode exOracle none exTree []).1.is_interactive =
      ((!(assignNode exOracle none exTree []).1.excluded_by_parent &&
        !(assignNode exOracle none exTree []).1.ignored_by_paint_order) &&
       (if (assignNode exOracle none exTree []).1.raw.is_actually_scrollable then
          !((subtreesList (assignNode exOracle none exTree []).1.children).any
            fun d => exOracle d.raw)
        else
          exOracle (assignNode exOracle none exTree []).1.raw &&
            (((assignNode exOracle none exTree []).1.raw.snapshot_node.isSome &&
              (assignNode exOracle none exTree []).1.raw.is_visible) ||
             (assignNode exOracle none exTree []).1.raw.isFileInput))) :=
  ((indexing_decision exOracle none exTree exTree_unassigned)
    _ (self_mem_subtrees _)).1

/-- C3 (amended): among the nodes of the assigned tree, `is_new` is set
exactly on the nodes made addressable in this run that are either
compound-component nodes, or whose backend id is absent from the ids of a
non-empty previous AddressTable's values; nodes not made addressable are
never flagged new, and an empty or missing previous table flags no
non-compound node. -/
theorem novelty_flags (oracle : RawData → Bool) (prev : Option SMap)
    (t : SNode) (hun : unassigned t) :
    ∀ s ∈ subtrees (assignNode oracle prev t []).1,
      s.is_new =
        (s.is_interactive &&
         (s.is_compound_component ||
          (prevTruthy prev &&
            !((prevBackendIds (prev.getD [])).contains s.raw.backend_node_id)))) := by
  intro s hs
  have h := assign_flags oracle prev t [] hun s hs
  rw [h.2, h.1]

/-- A compound-component node (range input) that the oracle rejects. -/
def exCompound : SNode :=
  .mk (elemData "INPUT" [("type", "range")]) [] false true false false false false true
    [CompoundChild.basic "slider" "Value" (some 0) (some 100) none]

/-- C3 counterexample: a compound-component node that is not made
addressable (oracle rejects it; it is not scrollable) keeps
`is_new = false` even though a previous AddressTable was supplied and its
backend id is absent from it — refuting "a compound-component-bearing node
is always flagged new regardless of history". -/
theorem compound_not_new_counterexample :
    exCompound.is_compound_component = true ∧
    (assignNode (fun _ => false) (some [(7, elemData "SPAN" [])]) exCompound []).1.is_new
      = false := by
  constructor
  · rfl
  · simp [assignNode, assignList, shouldMakeInteractive, exCompound, SNode.raw,
      elemData, RawData.isFileInput, RawData.tag_name, pyLower, RawData.attrsTruthy,
      RawData.getAttr, amGet, SNode.is_new]

/-- C3 witness: in the example tree (previous table supplied, non-empty, not
containing the button's id 0... the button is made addressable and flagged
new). -/
theorem novelty_flags_witness :
    (assignNode exOracle (some [(7, elemData "SPAN" [])]) exTree []).1.is_new =
      ((assignNode exOracle (some [(7, elemData "SPAN" [])]) exTree []).1.is_interactive &&
       ((assignNode exOracle (some [(7, elemData "SPAN" [])]) exTree []).1.is_compound_component ||
        (prevTruthy (some [(7, elemData "SPAN" [])]) &&
          !((prevBackendIds ((some [(7, elemData "SPAN" [])] : Option SMap).getD [])).contains
            (assignNode exOracle (some [(7, elemData "SPAN" [])]) exTree []).1.raw.backend_node_id)))) :=
  (novelty_flags exOracle (some [(7, elemData "SPAN" [])]) exTree exTree_unassigned)
    _ (self_mem_subtrees _)

mutual

/-- Clear every `ignored_by_paint_order` flag of a tree.  The paint-order
collaborator's contract (it only mutates these flags) is expressed as:
erasing the flags after the collaborator ran gives the original tree with
its flags erased. -/
def eraseIgnored : SNode → SNode
  | .mk raw cs a b c d e _ g cc => .mk raw (eraseIgnoredList cs) a b c d e false g cc
termination_by n => sizeOf n
decreasing_by
  all_goals simp_wf
  all_goals try subst_vars
  all_goals try simp only [SNode.mk.sizeOf_spec, List.cons.sizeOf_spec]
  all_goals try omega

/-- `eraseIgnored` over a list of siblings. -/
def eraseIgnoredList : List SNode → List SNode
  | [] => []
  | c :: cs => eraseIgnored c :: eraseIgnoredList cs
termination_by l => sizeOf l
decreasing_by
  all_goals simp_wf
  all_goals try subst_vars
  all_goals try simp only [SNode.mk.sizeOf_spec, List.cons.sizeOf_spec]
  all_goals try omega

end

mutual

theorem subtrees_erase (t : SNode) :
    subtrees (eraseIgnored t) = (subtrees t).map eraseIgnored := by
  cases t with
  | mk raw cs a b c d e f g cc =>
      simp only [eraseIgnored, subtrees_mk, List.map_cons]
      rw [subtreesList_erase cs]
termination_by sizeOf t
decreasing_by
  all_goals simp_wf
  all_goals try subst_vars
  all_goals try simp only [SNode.mk.sizeOf_spec, List.cons.sizeOf_spec]
  all_goals try omega

theorem subtreesList_erase (cs : List SNode) :
    subtreesList (eraseIgnoredList cs) = (subtreesList cs).map eraseIgnored := by
  cases cs with
  | nil => simp [eraseIgnoredList, subtreesList]
  | cons c cs =>
      simp only [eraseIgnoredList, subtreesList, List.map_append]
      rw [subtrees_erase c, subtreesList_erase cs]
termination_by sizeOf cs
decreasing_by
  all_goals simp_wf
  all_goals try subst_vars
  all_goals try simp only [SNode.mk.sizeOf_spec, List.cons.sizeOf_spec]
  all_goals try omega

end

/-- `eraseIgnored` keeps the raw data and the interactive/new flags of the
node it is applied to. -/
theorem eraseIgnored_fields (s : SNode) :
    (eraseIgnored s).raw = s.raw ∧
    (eraseIgnored s).is_interactive = s.is_interactive ∧
    (eraseIgnored s).is_new = s.is_new := by
  cases s with
  | mk raw cs a b c d e f g cc =>
      simp [eraseIgnored, SNode.raw, SNode.is_interactive, SNode.is_new]

/-- The "unassigned flags" invariant is insensitive to erasing the paint
flags. -/
theorem unassigned_erase (x : SNode) : unassigned (eraseIgnored x) ↔ unassigned x := by
  unfold unassigned
  rw [subtrees_erase]
  simp only [List.mem_map]
  constructor
  · intro h s hs
    have := h (eraseIgnored s) ⟨s, hs, rfl⟩
    rwa [(eraseIgnored_fields s).2.1, (eraseIgnored_fields s).2.2] at this
  · rintro h s ⟨s', hs', rfl⟩
    rw [(eraseIgnored_fields s').2.1, (eraseIgnored_fields s').2.2]
    exact h s' hs'

/-- The subtree backend ids are insensitive to erasing the paint flags. -/
theorem sIds_erase (x : SNode) : sIds (eraseIgnored x) = sIds x := by
  unfold sIds
  rw [subtrees_erase, List.map_map]
  exact List.map_congr_left fun s _ => by
    simp [Function.comp, (eraseIgnored_fields s).1]

/-- A node with clear interactive/new flags whose children all satisfy the
invariant satisfies it. -/
theorem unassigned_mk (raw : RawData) (cs : List SNode) (a b e f g : Bool)
    (cc : List CompoundChild) (hc : ∀ c ∈ cs, unassigned c) :
    unassigned (.mk raw cs a b false false e f g cc) := by
  intro s hs
  rw [subtrees_mk] at hs
  rcases List.mem_cons.mp hs with rfl | hs
  · exact ⟨rfl, rfl⟩
  · obtain ⟨c, hc', hs'⟩ := mem_subtreesList.mp hs
    exact hc c hc' s hs'

mutual

/-- Every tree produced by the simplifier has all interactive/new flags
clear. -/
theorem create_unassigned (sid : Option String) (r : RawNode) (t : SNode)
    (h : create_simplified_tree sid r = some t) : unassigned t := by
  cases r with
  | mk d cs ss cd =>
      simp only [create_simplified_tree] at h
      split at h
      · exact simplifyFirst_unassigned sid (cs ++ ss) t h
      · split at h
        · obtain rfl := Option.some_injective _ h
          exact unassigned_mk _ _ _ _ _ _ _ _
            (fun c hc => simplifyList_unassigned sid (cs ++ ss) c hc)
        · obtain rfl := Option.some_injective _ h
          exact unassigned_mk _ _ _ _ _ _ _ _ (fun c hc => by simp at hc)
      · split at h
        · simp at h
        · split at h
          · simp at h
          · split at h
            · simp at h
            · split at h
              · obtain rfl := Option.some_injective _ h
                exact unassigned_mk _ _ _ _ _ _ _ _
                  (fun c hc => simplifyList_unassigned sid (contentChildren cd) c hc)
              · exact simplifyElementRest_unassigned sid d cs ss cd t h
      · split at h
        · obtain rfl := Option.some_injective _ h
          exact unassigned_mk _ _ _ _ _ _ _ _ (fun c hc => by simp at hc)
        · simp at h
termination_by sizeOf r
decreasing_by
  all_goals simp_wf
  all_goals try subst_vars
  all_goals try simp only [RawNode.mk.sizeOf_spec]
  all_goals try omega
  all_goals first
    | exact casr_sizeOf_lt _ _ _ _
    | exact contentChildren_lt _ _ _ _

/-- Every node kept by the simplifier's list pass has clear flags. -/
theorem simplifyList_unassigned (sid : Option String) (l : List RawNode) :
    ∀ t ∈ simplifyList sid l, unassigned t := by
  cases l with
  | nil => intro t ht; simp [simplifyList] at ht
  | cons c cs =>
      intro t ht
      simp only [simplifyList] at ht
      split at ht
      · rename_i s heq
        rcases List.mem_cons.mp ht with rfl | ht
        · exact create_unassigned sid c _ heq
        · exact simplifyList_unassigned sid cs _ ht
      · exact simplifyList_unassigned sid cs _ ht
termination_by sizeOf l
decreasing_by
  all_goals simp_wf
  all_goals try subst_vars
  all_goals try simp only [List.cons.sizeOf_spec]
  all_goals try omega

/-- The document-unwrapping result has clear flags. -/
theorem simplifyFirst_unassigned (sid : Option String) (l : List RawNode) (t : SNode)
    (h : simplifyFirst sid l = some t) : unassigned t := by
  cases l with
  | nil => simp [simplifyFirst] at h
  | cons c cs =>
      simp only [simplifyFirst] at h
      split at h
      · rename_i s heq
        obtain rfl := Option.some_injective _ h
        exact create_unassigned sid c _ heq
      · exact simplifyFirst_unassigned sid cs t h
termination_by sizeOf l
decreasing_by
  all_goals simp_wf
  all_goals try subst_vars
  all_goals try simp only [List.cons.sizeOf_spec]
  all_goals try omega

/-- The regular-element branch produces clear flags. -/
theorem simplifyElementRest_unassigned (sid : Option String) (d : RawData)
    (cs ss : List RawNode) (cd : Option RawNode) (t : SNode)
    (h : simplifyElementRest sid d cs ss cd = some t) : unassigned t := by
  simp only [simplifyElementRest] at h
  repeat' split at h
  all_goals first
    | (obtain rfl := Option.some_injective _ h
       exact unassigned_mk _ _ _ _ _ _ _ _
         (fun c hc => simplifyList_unassigned sid (cs ++ ss) c hc))
    | simp at h
termination_by sizeOf cs + sizeOf ss
decreasing_by
  all_goals simp_wf
  all_goals exact append_sizeOf_lt _ _

end

mutual

/-- All backend node ids occurring anywhere in a raw DOM tree (the node
itself, its children, its shadow roots, and its content document). -/
def rawIds : RawNode → List ℕ
  | .mk d cs ss cd =>
      d.backend_node_id :: (rawIdsList cs ++ rawIdsList ss ++ rawIdsOpt cd)
termination_by n => sizeOf n
decreasing_by all_goals (simp_wf; try omega)

/-- `rawIds` over a list of raw siblings. -/
def rawIdsList : List RawNode → List ℕ
  | [] => []
  | c :: cs => rawIds c ++ rawIdsList cs
termination_by l => sizeOf l
decreasing_by all_goals (simp_wf; try omega)

/-- `rawIds` over an optional raw node. -/
def rawIdsOpt : Option RawNode → List ℕ
  | none => []
  | some n => rawIds n
termination_by o => sizeOf o
decreasing_by all_goals (simp_wf; try omega)

end

theorem rawIdsList_append (a b : List RawNode) :
    rawIdsList (a ++ b) = rawIdsList a ++ rawIdsList b := by
  induction a with
  | nil => simp [rawIdsList]
  | cons c cs ih => simp [rawIdsList, ih]

/-- The backend ids of the simplified subtrees of a list of siblings. -/
def sIdsList (cs : List SNode) : List ℕ :=
  (subtreesList cs).map fun s => s.raw.backend_node_id

theorem sIds_mkNode (raw : RawData) (cs : List SNode) (a b c d e f g : Bool)
    (cc : List CompoundChild) :
    sIds (.mk raw cs a b c d e f g cc) = raw.backend_node_id :: sIdsList cs := by
  simp [sIds, subtrees_mk, sIdsList, SNode.raw]

theorem sIdsList_nil : sIdsList [] = [] := by
  simp [sIdsList, subtreesList]

theorem sIdsList_cons (c : SNode) (cs : List SNode) :
    sIdsList (c :: cs) = sIds c ++ sIdsList cs := by
  simp [sIdsList, subtreesList, sIds]

/-- The ids below a frame's content document are among the ids of the
optional content document node. -/
theorem rawIds_contentChildren (cd : Option RawNode) :
    List.Sublist (rawIdsList (contentChildren cd)) (rawIdsOpt cd) := by
  cases cd with
  | none => simp [contentChildren, rawIdsOpt, rawIdsList]
  | some doc =>
      cases doc with
      | mk d cs ss c =>
          simp only [contentChildren, RawNode.children, rawIdsOpt, rawIds]
          exact ((List.sublist_append_left _ _).trans
            (List.sublist_append_left _ _)).trans (List.sublist_cons_self _ _)

mutual

/-- The backend ids of the simplified tree's subtree occurrences form a
sublist of the raw tree's backend ids. -/
theorem create_sIds (sid : Option String) (r : RawNode) (t : SNode)
    (h : create_simplified_tree sid r = some t) : List.Sublist (sIds t) (rawIds r) := by
  cases r with
  | mk d cs ss cd =>
      simp only [create_simplified_tree] at h
      simp only [rawIds]
      split at h
      · have h1 := simplifyFirst_sIds sid (cs ++ ss) t h
        rw [rawIdsList_append] at h1
        exact h1.trans ((List.sublist_append_left _ _).trans (List.sublist_cons_self _ _))
      · split at h
        · obtain rfl := Option.some_injective _ h
          rw [mkPlainSNode, sIds_mkNode]
          refine List.Sublist.cons₂ _ ?_
          have h1 := simplifyList_sIds sid (cs ++ ss)
          rw [rawIdsList_append] at h1
          exact h1.trans (List.sublist_append_left _ _)
        · obtain rfl := Option.some_injective _ h
          rw [mkPlainSNode, sIds_mkNode, sIdsList_nil]
          exact List.Sublist.cons₂ _ (List.nil_sublist _)
      · split at h
        · simp at h
        · split at h
          · simp at h
          · split at h
            · simp at h
            · split at h
              · obtain rfl := Option.some_injective _ h
                rw [mkPlainSNode, sIds_mkNode]
                refine List.Sublist.cons₂ _ ?_
                exact ((simplifyList_sIds sid (contentChildren cd)).trans
                  (rawIds_contentChildren cd)).trans (List.sublist_append_right _ _)
              · have h1 := simplifyElementRest_sIds sid d cs ss cd t h
                rw [rawIdsList_append] at h1
                exact h1.trans (List.Sublist.cons₂ _ (List.sublist_append_left _ _))
      · split at h
        · obtain rfl := Option.some_injective _ h
          rw [mkPlainSNode, sIds_mkNode, sIdsList_nil]
          exact List.Sublist.cons₂ _ (List.nil_sublist _)
        · simp at h
termination_by sizeOf r
decreasing_by
  all_goals simp_wf
  all_goals try subst_vars
  all_goals try simp only [RawNode.mk.sizeOf_spec]
  all_goals try omega
  all_goals first
    | exact casr_sizeOf_lt _ _ _ _
    | exact contentChildren_lt _ _ _ _

/-- List version of `create_sIds`. -/
theorem simplifyList_sIds (sid : Option String) (l : List RawNode) :
    List.Sublist (sIdsList (simplifyList sid l)) (rawIdsList l) := by
  cases l with
  | nil => simp [simplifyList, rawIdsList, sIdsList_nil]
  | cons c cs =>
      simp only [simplifyList, rawIdsList]
      split
      · rename_i s heq
        rw [sIdsList_cons]
        exact List.Sublist.append (create_sIds sid c s heq) (simplifyList_sIds sid cs)
      · exact (simplifyList_sIds sid cs).trans (List.sublist_append_right _ _)
termination_by sizeOf l
decreasing_by
  all_goals simp_wf
  all_goals try subst_vars
  all_goals try simp only [List.cons.sizeOf_spec]
  all_goals try omega

/-- Document-unwrapping version of `create_sIds`. -/
theorem simplifyFirst_sIds (sid : Option String) (l : List RawNode) (t : SNode)
    (h : simplifyFirst sid l = some t) : List.Sublist (sIds t) (rawIdsList l) := by
  cases l with
  | nil => simp [simplifyFirst] at h
  | cons c cs =>
      simp only [simplifyFirst, rawIdsList]
      simp only [simplifyFirst] at h
      split at h
      · rename_i s heq
        obtain rfl := Option.some_injective _ h
        exact (create_sIds sid c _ heq).trans (List.sublist_append_left _ _)
      · exact (simplifyFirst_sIds sid cs t h).trans (List.sublist_append_right _ _)
termination_by sizeOf l
decreasing_by
  all_goals simp_wf
  all_goals try subst_vars
  all_goals try simp only [List.cons.sizeOf_spec]
  all_goals try omega

/-- Regular-element version of `create_sIds`. -/
theorem simplifyElementRest_sIds (sid : Option String) (d : RawData)
    (cs ss : List RawNode) (cd : Option RawNode) (t : SNode)
    (h : simplifyElementRest sid d cs ss cd = some t) :
    List.Sublist (sIds t) (d.backend_node_id :: rawIdsList (cs ++ ss)) := by
  simp only [simplifyElementRest] at h
  repeat' split at h
  all_goals first
    | (obtain rfl := Option.some_injective _ h
       rw [sIds_mkNode]
       exact List.Sublist.cons₂ _ (simplifyList_sIds sid (cs ++ ss)))
    | simp at h
termination_by sizeOf cs + sizeOf ss
decreasing_by
  all_goals simp_wf
  all_goals exact append_sizeOf_lt _ _

end

mutual

/-- The bottom-up optimization pass keeps the interactive/new flags clear. -/
theorem optimize_unassigned (n t : SNode) (hun : unassigned n)
    (h : optimize_tree_node n = some t) : unassigned t := by
  cases n with
  | mk raw cs f1 f2 f3 f4 f5 f6 f7 cc =>
      have h0 := hun _ (self_mem_subtrees _)
      simp only [SNode.is_interactive, SNode.is_new] at h0
      obtain ⟨rfl, rfl⟩ : f3 = false ∧ f4 = false := h0
      have hunc : ∀ c ∈ cs, unassigned c := by
        intro c hc s hs
        apply hun s
        rw [subtrees_mk]
        exact List.mem_cons_of_mem _ (mem_subtreesList.mpr ⟨c, hc, hs⟩)
      simp only [optimize_tree_node] at h
      split at h
      · obtain rfl := Option.some_injective _ h
        exact unassigned_mk _ _ _ _ _ _ _ _
          (fun c hc => optimizeList_unassigned cs hunc c hc)
      · simp at h
termination_by sizeOf n
decreasing_by
  all_goals simp_wf
  all_goals try subst_vars
  all_goals try simp only [SNode.mk.sizeOf_spec, List.cons.sizeOf_spec]
  all_goals try omega

/-- List version of `optimize_unassigned`. -/
theorem optimizeList_unassigned (cs : List SNode) (hun : ∀ c ∈ cs, unassigned c) :
    ∀ t ∈ optimizeList cs, unassigned t := by
  cases cs with
  | nil => intro t ht; simp [optimizeList] at ht
  | cons c cs =>
      intro t ht
      simp only [optimizeList] at ht
      split at ht
      · rename_i s heq
        rcases List.mem_cons.mp ht with rfl | ht
        · exact optimize_unassigned c _ (hun c (by simp)) heq
        · exact optimizeList_unassigned cs (fun x hx => hun x (by simp [hx])) _ ht
      · exact optimizeList_unassigned cs (fun x hx => hun x (by simp [hx])) _ ht
termination_by sizeOf cs
decreasing_by
  all_goals simp_wf
  all_goals try subst_vars
  all_goals try simp only [List.cons.sizeOf_spec]
  all_goals try omega

end

mutual

/-- The optimization pass drops some subtree occurrences and reorders
nothing: the surviving backend ids form a sublist. -/
theorem optimize_sIds (n t : SNode) (h : optimize_tree_node n = some t) :
    List.Sublist (sIds t) (sIds n) := by
  cases n with
  | mk raw cs f1 f2 f3 f4 f5 f6 f7 cc =>
      simp only [optimize_tree_node] at h
      split at h
      · obtain rfl := Option.some_injective _ h
        rw [sIds_mkNode, sIds_mkNode]
        exact List.Sublist.cons₂ _ (optimizeList_sIds cs)
      · simp at h
termination_by sizeOf n
decreasing_by
  all_goals simp_wf
  all_goals try subst_vars
  all_goals try simp only [SNode.mk.sizeOf_spec, List.cons.sizeOf_spec]
  all_goals try omega

/-- List version of `optimize_sIds`. -/
theorem optimizeList_sIds (cs : List SNode) :
    List.Sublist (sIdsList (optimizeList cs)) (sIdsList cs) := by
  cases cs with
  | nil => simp [optimizeList]
  | cons c cs =>
      simp only [optimizeList]
      split
      · rename_i s heq
        rw [sIdsList_cons, sIdsList_cons]
        exact List.Sublist.append (optimize_sIds c s heq) (optimizeList_sIds cs)
      · rw [sIdsList_cons]
        exact (optimizeList_sIds cs).trans (List.sublist_append_right _ _)
termination_by sizeOf cs
decreasing_by
  all_goals simp_wf
  all_goals try subst_vars
  all_goals try simp only [List.cons.sizeOf_spec]
  all_goals try omega

end

mutual

/-- The containment pass keeps the interactive/new flags clear (it only ever
sets `excluded_by_parent`). -/
theorem filter_unassigned (θ : ℚ) (n : SNode) (b : Option PropagatingBounds) (d : ℕ)
    (hun : unassigned n) : unassigned (filter_tree_recursive θ n b d) := by
  cases n with
  | mk raw cs f1 f2 f3 f4 f5 f6 f7 cc =>
      have h0 := hun _ (self_mem_subtrees _)
      simp only [SNode.is_interactive, SNode.is_new] at h0
      obtain ⟨rfl, rfl⟩ : f3 = false ∧ f4 = false := h0
      have hunc : ∀ c ∈ cs, unassigned c := by
        intro c hc s hs
        apply hun s
        rw [subtrees_mk]
        exact List.mem_cons_of_mem _ (mem_subtreesList.mpr ⟨c, hc, hs⟩)
      simp only [filter_tree_recursive]
      exact unassigned_mk _ _ _ _ _ _ _ _
        (fun c hc => filterList_unassigned θ cs
          (propagateChoice (newBoundsFor raw d) b) (d + 1) hunc c hc)
termination_by sizeOf n
decreasing_by
  all_goals simp_wf
  all_goals try subst_vars
  all_goals try simp only [SNode.mk.sizeOf_spec, List.cons.sizeOf_spec]
  all_goals try omega

/-- List version of `filter_unassigned`. -/
theorem filterList_unassigned (θ : ℚ) (cs : List SNode) (b : Option PropagatingBounds)
    (d : ℕ) (hun : ∀ c ∈ cs, unassigned c) :
    ∀ t ∈ filterList θ cs b d, unassigned t := by
  cases cs with
  | nil => intro t ht; simp [filterList] at ht
  | cons c cs =>
      intro t ht
      simp only [filterList] at ht
      rcases List.mem_cons.mp ht with rfl | ht
      · exact filter_unassigned θ c b d (hun c (by simp))
      · exact filterList_unassigned θ cs b d (fun x hx => hun x (by simp [hx])) _ ht
termination_by sizeOf cs
decreasing_by
  all_goals simp_wf
  all_goals try subst_vars
  all_goals try simp only [List.cons.sizeOf_spec]
  all_goals try omega

end

mutual

/-- The containment pass changes no structure: the subtree backend ids are
unchanged. -/
theorem filter_sIds (θ : ℚ) (n : SNode) (b : Option PropagatingBounds) (d : ℕ) :
    sIds (filter_tree_recursive θ n b d) = sIds n := by
  cases n with
  | mk raw cs f1 f2 f3 f4 f5 f6 f7 cc =>
      simp only [filter_tree_recursive]
      rw [sIds_mkNode, sIds_mkNode,
        filterList_sIds θ cs (propagateChoice (newBoundsFor raw d) b) (d + 1)]
termination_by sizeOf n
decreasing_by
  all_goals simp_wf
  all_goals try subst_vars
  all_goals try simp only [SNode.mk.sizeOf_spec, List.cons.sizeOf_spec]
  all_goals try omega

/-- List version of `filter_sIds`. -/
theorem filterList_sIds (θ : ℚ) (cs : List SNode) (b : Option PropagatingBounds) (d : ℕ) :
    sIdsList (filterList θ cs b d) = sIdsList cs := by
  cases cs with
  | nil => simp [filterList]
  | cons c cs =>
      simp only [filterList]
      rw [sIdsList_cons, sIdsList_cons, filter_sIds θ c b d, filterList_sIds θ cs b d]
termination_by sizeOf cs
decreasing_by
  all_goals simp_wf
  all_goals try subst_vars
  all_goals try simp only [List.cons.sizeOf_spec]
  all_goals try omega

end

mutual

/-- The assignment pass changes no structure either: the subtree backend ids
of the returned tree equal those of the input tree. -/
theorem assign_sIds (oracle : RawData → Bool) (prev : Option SMap)
    (t : SNode) (m : SMap) :
    sIds (assignNode oracle prev t m).1 = sIds t := by
  cases t with
  | mk raw cs sh comp inter isnew excl ign disp cc =>
      simp only [assignNode]
      split
      · split
        · rw [sIds_mkNode, sIds_mkNode,
            assignList_sIds oracle prev cs (smInsert m raw.backend_node_id raw)]
        · rw [sIds_mkNode, sIds_mkNode, assignList_sIds oracle prev cs m]
      · rw [sIds_mkNode, sIds_mkNode, assignList_sIds oracle prev cs m]
termination_by sizeOf t
decreasing_by
  all_goals simp_wf
  all_goals try subst_vars
  all_goals try simp only [SNode.mk.sizeOf_spec, List.cons.sizeOf_spec]
  all_goals try omega

/-- List version of `assign_sIds`. -/
theorem assignList_sIds (oracle : RawData → Bool) (prev : Option SMap)
    (cs : List SNode) (m : SMap) :
    sIdsList (assignList oracle prev cs m).1 = sIdsList cs := by
  cases cs with
  | nil => simp [assignList]
  | cons c cs =>
      simp only [assignList]
      rw [sIdsList_cons, sIdsList_cons, assign_sIds oracle prev c m,
        assignList_sIds oracle prev cs (assignNode oracle prev c m).2]
termination_by sizeOf cs
decreasing_by
  all_goals simp_wf
  all_goals try subst_vars
  all_goals try simp only [List.cons.sizeOf_spec]
  all_goals try omega

end

/-- If the mapped keys of a list are pairwise distinct and some member
satisfies the flag and carries the key, then exactly one member passes the
flag-and-key filter. -/
theorem count_one {α : Type} (f : α → ℕ) (p : α → Bool) (k : ℕ) (l : List α)
    (hp : (l.map f).Pairwise (fun a b => a ≠ b))
    (hx : ∃ x ∈ l, p x = true ∧ f x = k) :
    (l.filter fun x => p x && f x == k).length = 1 := by
  induction l with
  | nil => simp at hx
  | cons a l ih =>
      rw [List.map_cons, List.pairwise_cons] at hp
      obtain ⟨hpa, hpl⟩ := hp
      by_cases ha : (p a && f a == k) = true
      · rw [List.filter_cons, if_pos ha]
        have hfa : f a = k := by
          have h2 := (Bool.and_eq_true _ _).mp ha
          simpa using h2.2
        have hnil : List.filter (fun x => p x && f x == k) l = [] := by
          rw [List.filter_eq_nil_iff]
          intro x hxl hxx
          have hfx : f x = k := by
            have h2 := (Bool.and_eq_true _ _).mp hxx
            simpa using h2.2
          exact hpa (f x) (List.mem_map_of_mem f hxl) (hfa.trans hfx.symm)
        rw [hnil]
        simp
      · rw [List.filter_cons, if_neg ha]
        apply ih hpl
        rcases hx with ⟨x, hxm, hxp, hxf⟩
        rcases List.mem_cons.mp hxm with rfl | hxm
        · exact absurd (by simp [hxp, hxf]) ha
        · exact ⟨x, hxm, hxp, hxf⟩

/-- Under the paint-order collaborator's contract (it only mutates
`ignored_by_paint_order` flags), the collaborator keeps the interactive/new
flags clear. -/
theorem paint_unassigned (paintMark : SNode → SNode)
    (hpaint : ∀ x, eraseIgnored (paintMark x) = eraseIgnored x) (n : SNode)
    (hun : unassigned n) : unassigned (paintMark n) := by
  rw [← unassigned_erase, hpaint, unassigned_erase]
  exact hun

/-- Under the same contract, the collaborator keeps the subtree backend ids
unchanged. -/
theorem paint_sIds (paintMark : SNode → SNode)
    (hpaint : ∀ x, eraseIgnored (paintMark x) = eraseIgnored x) (n : SNode) :
    sIds (paintMark n) = sIds n := by
  rw [← sIds_erase (paintMark n), hpaint, sIds_erase]

/-- C1: after one run of `serialize_accessible_elements` — under the
paint-order collaborator's contract and assuming the raw tree's backend node
ids are pairwise distinct — the returned AddressTable is in bijection with
the interactive-marked nodes of the returned tree: a backend id is a key of
the table exactly when some node of the returned tree is marked
`is_interactive` with that id, and every key corresponds to exactly one such
node. -/
theorem address_table_bijection
    (oracle : RawData → Bool) (paintMark : SNode → SNode) (sid : Option String)
    (prev : Option SMap) (enable_bbox : Bool) (θ : ℚ) (paint_flag : Bool)
    (root : RawNode) (t : SNode) (k : ℕ)
    (hpaint : ∀ x, eraseIgnored (paintMark x) = eraseIgnored x)
    (hids : (rawIds root).Pairwise (fun a b => a ≠ b))
    (ht : (serialize_accessible_elements oracle paintMark sid prev enable_bbox θ
        paint_flag root).1 = some t) :
    (k ∈ smKeys (serialize_accessible_elements oracle paintMark sid prev enable_bbox θ
        paint_flag root).2 ↔
      ∃ s ∈ subtrees t, s.is_interactive = true ∧ s.raw.backend_node_id = k) ∧
    (k ∈ smKeys (serialize_accessible_elements oracle paintMark sid prev enable_bbox θ
        paint_flag root).2 →
      ((subtrees t).filter fun s => s.is_interactive && s.raw.backend_node_id == k).length
        = 1) := by
  have key : ∃ n4 : SNode, unassigned n4 ∧ List.Sublist (sIds n4) (rawIds root) ∧
      serialize_accessible_elements oracle paintMark sid prev enable_bbox θ paint_flag root
        = assign_interactive oracle prev (some n4) := by
    cases h1 : create_simplified_tree sid root with
    | none =>
        exfalso
        simp only [serialize_accessible_elements] at ht
        rw [h1] at ht
        cases paint_flag <;>
          simp [optimize_tree, apply_bounding_box_filtering, assign_interactive] at ht
    | some n1 =>
        have hun1 : unassigned n1 := create_unassigned sid root n1 h1
        have hsub1 : List.Sublist (sIds n1) (rawIds root) := create_sIds sid root n1 h1
        have hstage2 : (if paint_flag then (some n1).map paintMark else some n1) =
            some (if paint_flag then paintMark n1 else n1) := by
          cases paint_flag <;> simp
        have hun2 : unassigned (if paint_flag then paintMark n1 else n1) := by
          cases paint_flag
          · simpa using hun1
          · simpa using paint_unassigned paintMark hpaint n1 hun1
        have hsid2 : sIds (if paint_flag then paintMark n1 else n1) = sIds n1 := by
          cases paint_flag
          · simp
          · simpa using paint_sIds paintMark hpaint n1
        cases h3 : optimize_tree_node (if paint_flag then paintMark n1 else n1) with
        | none =>
            exfalso
            simp only [serialize_accessible_elements] at ht
            rw [h1, hstage2] at ht
            simp only [optimize_tree] at ht
            rw [h3] at ht
            cases enable_bbox <;> simp [assign_interactive] at ht
        | some n3 =>
            have hun3 := optimize_unassigned _ n3 hun2 h3
            have hs3 : List.Sublist (sIds n3) (sIds n1) := by
              have h4 := optimize_sIds _ n3 h3
              rwa [hsid2] at h4
            have hsub3 := hs3.trans hsub1
            refine ⟨if enable_bbox then filter_tree_recursive θ n3 none 0 else n3,
              ?_, ?_, ?_⟩
            · cases enable_bbox
              · simpa using hun3
              · simpa using filter_unassigned θ n3 none 0 hun3
            · cases enable_bbox
              · simpa using hsub3
              · simp only [if_pos]
                rw [filter_sIds θ n3 none 0]
                exact hsub3
            · simp only [serialize_accessible_elements]
              rw [h1, hstage2]
              simp only [optimize_tree]
              rw [h3]
              cases enable_bbox
              · simp
              · simp [apply_bounding_box_filtering]
  obtain ⟨n4, hun4, hsub4, heq⟩ := key
  rw [heq] at ht ⊢
  simp only [assign_interactive] at ht ⊢
  obtain rfl : (assignNode oracle prev n4 []).1 = t := Option.some_injective _ ht
  have hmem : k ∈ smKeys (assignNode oracle prev n4 []).2 ↔
      ∃ s ∈ subtrees (assignNode oracle prev n4 []).1,
        s.is_interactive = true ∧ s.raw.backend_node_id = k := by
    rw [assign_keys oracle prev n4 [] hun4 k]
    simp [smKeys]
  constructor
  · exact hmem
  · intro hk
    have hex := hmem.mp hk
    have hsubT : List.Sublist (sIds (assignNode oracle prev n4 []).1) (rawIds root) := by
      rw [assign_sIds]
      exact hsub4
    have hpw : ((subtrees (assignNode oracle prev n4 []).1).map
        (fun s => s.raw.backend_node_id)).Pairwise (fun a b => a ≠ b) :=
      List.Pairwise.sublist hsubT hids
    exact count_one (fun s => s.raw.backend_node_id) (fun s => s.is_interactive) k _
      hpw hex

/-- The raw tree of the pipeline witness: a single visible button. -/
def exRootC1 : RawNode := .mk (elemDataVis "BUTTON" []) [] [] none

/-- C1 witness: the pipeline run on the one-button tree (identity paint
collaborator, no session id, no previous table, containment filtering off)
returns the button tree, the hypotheses hold, and the conclusion follows for
the button's backend id 0. -/
theorem address_table_bijection_witness :
    (∀ x : SNode, eraseIgnored ((fun y : SNode => y) x) = eraseIgnored x) ∧
    (rawIds exRootC1).Pairwise (fun a b => a ≠ b) ∧
    (serialize_accessible_elements exOracle (fun y : SNode => y) none none false 0 false
        exRootC1).1 = some (assignNode exOracle none exButton []).1 ∧
    ((0 ∈ smKeys (serialize_accessible_elements exOracle (fun y : SNode => y) none none
          false 0 false exRootC1).2 ↔
        ∃ s ∈ subtrees (assignNode exOracle none exButton []).1,
          s.is_interactive = true ∧ s.raw.backend_node_id = 0) ∧
      (0 ∈ smKeys (serialize_accessible_elements exOracle (fun y : SNode => y) none none
          false 0 false exRootC1).2 →
        ((subtrees (assignNode exOracle none exButton []).1).filter
          fun s => s.is_interactive && s.raw.backend_node_id == 0).length = 1)) := by
  have hids : (rawIds exRootC1).Pairwise (fun a b => a ≠ b) := by
    simp [exRootC1, rawIds, rawIdsList, rawIdsOpt]
  have h1 : create_simplified_tree none exRootC1 = some exButton := by
    simp [exRootC1, exButton, create_simplified_tree, simplifyElementRest, simplifyList,
      add_compound_components, elemDataVis, RawData.tag_name, RawNode.data, pyLower,
      excludedByAttr, effectiveExcludeAttr, amGet, optStrTruthy, DISABLED_ELEMENTS,
      SVG_ELEMENTS, RawData.is_visible, RawData.attrsTruthy, RawData.isFileInput]
  have h2 : optimize_tree_node exButton = some exButton := by
    simp [optimize_tree_node, optimizeList, exButton, elemDataVis, RawData.is_visible,
      RawData.isFileInput, RawData.tag_name, pyLower, RawData.attrsTruthy,
      RawData.getAttr, amGet]
  have hT : (serialize_accessible_elements exOracle (fun y : SNode => y) none none false 0
      false exRootC1).1 = some (assignNode exOracle none exButton []).1 := by
    simp [serialize_accessible_elements, h1, optimize_tree, h2, assign_interactive,
      apply_bounding_box_filtering]
  exact ⟨fun _ => rfl, hids, hT,
    address_table_bijection exOracle (fun y : SNode => y) none none false 0 false
      exRootC1 (assignNode exOracle none exButton []).1 0 (fun _ => rfl) hids hT⟩

/-- Python `str.upper()` on ASCII names, character-wise. -/
def pyUpper (s : String) : String := String.mk (s.toList.map Char.toUpper)

/-- Whether the first list is an initial segment of the second. -/
def subStarts : List Char → List Char → Bool
  | [], _ => true
  | _ :: _, [] => false
  | a :: as, b :: bs => a == b && subStarts as bs

/-- Whether the first list occurs as a contiguous segment of the second. -/
def listSub : List Char → List Char → Bool
  | needle, [] => needle.isEmpty
  | needle, c :: t => subStarts needle (c :: t) || listSub needle t

/-- Python `needle in hay` on strings (substring containment). -/
def pyInStr (needle hay : String) : Bool := listSub needle.data hay.data

/-- Python `sep.join(parts)`. -/
def joinWith (sep : String) : List String → String
  | [] => ""
  | [s] => s
  | s :: rest => s ++ sep ++ joinWith sep rest

/-- The `depth * chr(9)` indentation of a rendered line. -/
def tabs (d : ℕ) : String := String.mk (List.replicate d (Char.ofNat 9))

/-- Modelled from the spec: `cap_text_length` (imported from the DOM utils
module, outside `src/`) clips over-long attribute values at the given
bound; the embedding truncates to the bound and appends an ellipsis. -/
def cap_text_length (s : String) (n : ℕ) : String :=
  if s.length ≤ n then s else pyTake s n ++ "..."

/-- Modelled from the spec: `get_scroll_info_text` (a DOM views accessor,
outside `src/`) returns the scroll-info text supplied by the external
layout collaborator. -/
def get_scroll_info_text (r : RawData) : Option String := r.scroll_info_text

/-- Modelled from the spec: the textual rendering of a numeric compound
bound (Python prints the stored float; the embedding prints the exact
rational, integral values with the trailing ".0" Python uses). -/
def qRepr (q : ℚ) : String :=
  if q.den = 1 then toString q.num ++ ".0" else toString q

/-- The HTML-attribute stage of `_build_attributes_string`: keep the
included attributes whose stripped value is non-empty, stripped, in
attribute order. -/
def attrsStage1 (attrs : AttrMap) (inc : List String) : AttrMap :=
  attrs.foldl (fun m kv =>
    if inc.contains kv.1 && !(pyStrip kv.2 == "") then amSet m kv.1 (pyStrip kv.2)
    else m) []

/-- The HTML5 date/time `format` hints of `_build_attributes_string`. -/
def formatMap (t : String) : String :=
  if t = "date" then "YYYY-MM-DD"
  else if t = "time" then "HH:MM"
  else if t = "datetime-local" then "YYYY-MM-DDTHH:MM"
  else if t = "month" then "YYYY-MM"
  else "YYYY-W##"

/-- The date/time input types receiving a `format` attribute. -/
def dateTimeTypes : List String := ["date", "time", "datetime-local", "month", "week"]

/-- The format/placeholder-injection stage of `_build_attributes_string`
(date/time inputs, tel inputs, datepicker widgets). -/
def attrsStage2 (r : RawData) (inc : List String) (d0 : AttrMap) : AttrMap :=
  if r.tag_name ≠ "" ∧ pyLower r.tag_name = "input" ∧ r.attrsTruthy = true then
    let input_type := pyLower (r.getAttrD "type" "")
    let d1 := if dateTimeTypes.contains input_type then
        amSet d0 "format" (formatMap input_type)
      else d0
    if inc.contains "placeholder" ∧ amContains d1 "placeholder" = false then
      if input_type = "date" then amSet d1 "placeholder" "YYYY-MM-DD"
      else if input_type = "time" then amSet d1 "placeholder" "HH:MM"
      else if input_type = "datetime-local" then amSet d1 "placeholder" "YYYY-MM-DDTHH:MM"
      else if input_type = "month" then amSet d1 "placeholder" "YYYY-MM"
      else if input_type = "week" then amSet d1 "placeholder" "YYYY-W##"
      else if input_type = "tel" ∧ amContains d1 "pattern" = false then
        amSet d1 "placeholder" "123-456-7890"
      else if input_type = "text" ∨ input_type = "" then
        let class_attr := pyLower (r.getAttrD "class" "")
        if amContains (r.attributes.getD []) "uib-datepicker-popup" then
          let df := r.getAttrD "uib-datepicker-popup" ""
          if df ≠ "" then amSet (amSet d1 "expected_format" df) "format" df else d1
        else if pyInStr "datepicker" class_attr || pyInStr "datetimepicker" class_attr ||
            pyInStr "daterangepicker" class_attr then
          let df := r.getAttrD "data-date-format" ""
          if df ≠ "" then amSet (amSet d1 "placeholder" df) "format" df
          else amSet (amSet d1 "placeholder" "mm/dd/yyyy") "format" "mm/dd/yyyy"
        else if amContains (r.attributes.getD []) "data-datepicker" then
          let df := r.getAttrD "data-date-format" ""
          if df ≠ "" then amSet (amSet d1 "placeholder" df) "format" df
          else amSet (amSet d1 "placeholder" "mm/dd/yyyy") "format" "mm/dd/yyyy"
        else d1
      else d1
    else d1
  else d0

/-- The accessibility-property stage of `_build_attributes_string`. -/
def attrsStage3 (r : RawData) (inc : List String) (d0 : AttrMap) : AttrMap :=
  match r.ax_node with
  | some ax =>
      match ax.properties with
      | some props =>
          if props ≠ [] then
            props.foldl (fun m p =>
              if inc.contains p.name && p.value.isSome then
                match p.value with
                | some (.pbool b) => amSet m p.name (if b then "true" else "false")
                | some (.pstr s) =>
                    if pyStrip s ≠ "" then amSet m p.name (pyStrip s) else m
                | none => m
              else m) d0
          else d0
      | none => d0
  | none => d0

/-- The first usable current value among the AX properties of a form
element (`valuetext` or `value`, stripped, first non-empty wins). -/
def axCurrentValue : List AXProperty → Option String
  | [] => none
  | p :: ps =>
      if p.name = "valuetext" ∧ optTruthy p.value = true then
        if pyStrip (optPyStr p.value) ≠ "" then some (pyStrip (optPyStr p.value))
        else axCurrentValue ps
      else if p.name = "value" ∧ optTruthy p.value = true then
        if pyStrip (optPyStr p.value) ≠ "" then some (pyStrip (optPyStr p.value))
        else axCurrentValue ps
      else axCurrentValue ps

/-- The form-element current-value stage of `_build_attributes_string`. -/
def attrsStage4 (r : RawData) (d0 : AttrMap) : AttrMap :=
  if r.tag_name ≠ "" ∧ (["input", "textarea", "select"].contains (pyLower r.tag_name)) then
    match r.ax_node with
    | some ax =>
        match ax.properties with
        | some props =>
            if props ≠ [] then
              match axCurrentValue props with
              | some v => amSet d0 "value" v
              | none => d0
            else d0
        | none => d0
    | none => d0
  else d0

/-- Attributes never removed as duplicate values. -/
def protectedAttrs : List String :=
  ["format", "expected_format", "placeholder", "value", "aria-label", "title"]

/-- The duplicate-value scan of `_build_attributes_string`: walking the
included keys in order, a key whose value (longer than 5 characters) was
already seen is removed unless protected. -/
def dupRemoval (d : AttrMap) (ordered : List String) : List String :=
  (ordered.foldl (fun st k =>
    let v := (amGet d k).getD ""
    if v.length > 5 then
      if st.1.contains v && !(protectedAttrs.contains k) then (st.1, st.2 ++ [k])
      else (st.1 ++ [v], st.2)
    else st) (([], []) : List String × List String)).2

/-- The duplicate-removal stage of `_build_attributes_string`. -/
def attrsStage5 (d : AttrMap) (inc : List String) : AttrMap :=
  let ordered := inc.filter (fun k => amContains d k)
  if ordered.length > 1 then
    let rem := dupRemoval d ordered
    d.filter (fun kv => !(rem.contains kv.1))
  else d

/-- The role/type/invalid/required/aria-expanded pruning stages of
`_build_attributes_string`. -/
def attrsStage6 (r : RawData) (d0 : AttrMap) : AttrMap :=
  let dRole :=
    match r.ax_node with
    | some ax =>
        match ax.role with
        | some role => if role ≠ "" ∧ r.node_name = role then amErase d0 "role" else d0
        | none => d0
    | none => d0
  let dType :=
    match amGet dRole "type" with
    | some v => if pyLower v = pyLower r.node_name then amErase dRole "type" else dRole
    | none => dRole
  let dInv :=
    match amGet dType "invalid" with
    | some v => if pyLower v = "false" then amErase dType "invalid" else dType
    | none => dType
  let dReq :=
    match amGet dInv "required" with
    | some v => if ["false", "0", "no"].contains (pyLower v) then amErase dInv "required"
        else dInv
    | none => dInv
  if amContains dReq "expanded" && amContains dReq "aria-expanded" then
    amErase dReq "aria-expanded"
  else dReq

/-- One step of the text-duplicate pruning of `_build_attributes_string`. -/
def eraseIfTextMatches (text : String) (d : AttrMap) (k : String) : AttrMap :=
  match amGet d k with
  | some v =>
      if v ≠ "" ∧ pyLower (pyStrip v) = pyLower (pyStrip text) then amErase d k else d
  | none => d

/-- One rendered `key=value` attribute pair. -/
def fmtAttr (kv : String × String) : String :=
  let capped := cap_text_length kv.2 100
  if capped = "" then kv.1 ++ "=" ++ "\x27\x27" else kv.1 ++ "=" ++ capped

/-- `_build_attributes_string`: assemble the rendered attribute fragment
from the allowed HTML attributes, injected format hints, accessibility
properties, and the current form value, after the pruning passes. -/
def build_attributes_string (r : RawData) (inc : List String) (text : String) : String :=
  let d1 := if r.attrsTruthy then attrsStage1 (r.attributes.getD []) inc else []
  let d2 := attrsStage2 r inc d1
  let d3 := attrsStage3 r inc d2
  let d4 := attrsStage4 r d3
  if d4 = [] then ""
  else
    let d5 := attrsStage5 d4 inc
    let d6 := attrsStage6 r d5
    let d7 := eraseIfTextMatches text d6 "aria-label"
    let d8 := eraseIfTextMatches text d7 "placeholder"
    let d9 := eraseIfTextMatches text d8 "title"
    if d9 = [] then "" else joinWith " " (d9.map fmtAttr)

/-- The rendered fragments of one compound-component descriptor. -/
def compoundParts (c : CompoundChild) : List String :=
  (if c.name ≠ "" then ["name=" ++ c.name] else []) ++
  (if c.role ≠ "" then ["role=" ++ c.role] else []) ++
  (match c.valuemin with | some q => ["min=" ++ qRepr q] | none => []) ++
  (match c.valuemax with | some q => ["max=" ++ qRepr q] | none => []) ++
  (match c.valuenow with | some v => ["current=" ++ v] | none => []) ++
  (match c.options_count with | some n => ["count=" ++ toString n] | none => []) ++
  (match c.first_options with
   | some l => if l ≠ [] then ["options=" ++ joinWith "|" (l.take 4)] else []
   | none => []) ++
  (match c.format_hint with
   | some h => if h ≠ "" then ["format=" ++ h] else []
   | none => [])

/-- The rendered compound-component descriptors (empty ones dropped). -/
def compoundInfo (cc : List CompoundChild) : List String :=
  cc.filterMap fun c =>
    let ps := compoundParts c
    if ps ≠ [] then some ("(" ++ joinWith "," ps ++ ")") else none

/-- Whether any shadow-fragment child reports a closed root type. -/
def hasClosedShadow (cs : List SNode) : Bool :=
  cs.any fun c =>
    decide (c.raw.node_type = NodeKind.documentFragmentNode) &&
    optStrTruthy c.raw.shadow_root_type &&
    (pyLower (c.raw.shadow_root_type.getD "") == "closed")

/-- The shadow-host marker of a rendered line. -/
def shadowMark (sh : Bool) (cs : List SNode) : String :=
  if sh then (if hasClosedShadow cs then "|SHADOW(closed)|" else "|SHADOW(open)|")
  else ""

/-- The tail of a rendered element line: the attribute fragment (with the
compound-component summary appended), the closing ` />`, and the optional
scroll-info parenthetical. -/
def lineTailOf (raw : RawData) (inc : List String) (cc : List CompoundChild) : String :=
  let ah := build_attributes_string raw inc ""
  let attrs2 :=
    if cc ≠ [] then
      let ci := compoundInfo cc
      if ci ≠ [] then
        let ca := "compound_components=" ++ joinWith "," ci
        if ah ≠ "" then ah ++ " " ++ ca else ca
      else ah
    else ah
  (if attrs2 ≠ "" then " " ++ attrs2 else "") ++ " />" ++
  (if raw.should_show_scroll_info then
    match get_scroll_info_text raw with
    | some s => if s ≠ "" then " (" ++ s ++ ")" else ""
    | none => ""
   else "")

mutual

/-- `serialize_tree` on a present node (the `if not node` guard is the
wrapper below): excluded and display-suppressed element nodes pass their
children through at the same depth; SVG elements render one collapsed
line; element nodes render a marked line and indent their children iff
interactive, scrollable or a frame tag; shadow fragments render the
Open/Closed Shadow block; visible multi-character text renders one line. -/
def serializeNode (inc : List String) : SNode → ℕ → String
  | .mk raw cs sh _comp inter isnew excl _ign disp cc, depth =>
      if excl then joinWith "\n" (serializeChildren inc cs depth)
      else
        match raw.node_type with
        | NodeKind.elementNode =>
            if !disp then joinWith "\n" (serializeChildren inc cs depth)
            else if raw.tag_name = "svg" then
              let sp := shadowMark sh cs
              let base :=
                if inter then
                  tabs depth ++ sp ++ (if isnew then "*" else "") ++ "[" ++
                    toString raw.backend_node_id ++ "]" ++ "<svg"
                else tabs depth ++ sp ++ "<svg"
              let ah := build_attributes_string raw inc ""
              (if ah ≠ "" then base ++ " " ++ ah else base) ++
                " /> <!-- SVG content collapsed -->"
            else
              if inter || (raw.is_actually_scrollable || raw.is_scrollable) ||
                  pyUpper raw.tag_name == "IFRAME" || pyUpper raw.tag_name == "FRAME" then
                let line :=
                  (if raw.should_show_scroll_info && !inter then
                    tabs depth ++ shadowMark sh cs ++ "|SCROLL|<" ++ raw.tag_name
                   else if inter then
                    tabs depth ++ shadowMark sh cs ++ (if isnew then "*" else "") ++
                      (if raw.should_show_scroll_info then "|SCROLL[" else "[") ++
                      toString raw.backend_node_id ++ "]<" ++ raw.tag_name
                   else if pyUpper raw.tag_name == "IFRAME" then
                    tabs depth ++ shadowMark sh cs ++ "|IFRAME|<" ++ raw.tag_name
                   else if pyUpper raw.tag_name == "FRAME" then
                    tabs depth ++ shadowMark sh cs ++ "|FRAME|<" ++ raw.tag_name
                   else tabs depth ++ shadowMark sh cs ++ "<" ++ raw.tag_name) ++
                    lineTailOf raw inc cc
                joinWith "\n" (line :: serializeChildren inc cs (depth + 1))
              else joinWith "\n" (serializeChildren inc cs depth)
        | NodeKind.documentFragmentNode =>
            let header :=
              if optStrTruthy raw.shadow_root_type &&
                  (pyLower (raw.shadow_root_type.getD "") == "closed") then
                tabs depth ++ "Closed Shadow"
              else tabs depth ++ "Open Shadow"
            joinWith "\n" (header :: (serializeChildren inc cs (depth + 1) ++
              (if !cs.isEmpty then [tabs depth ++ "Shadow End"] else [])))
        | NodeKind.textNode =>
            if (raw.snapshot_node.isSome && raw.is_visible) &&
                optStrTruthy raw.node_value &&
                !(pyStrip (raw.node_value.getD "") == "") &&
                decide ((pyStrip (raw.node_value.getD "")).length > 1) then
              joinWith "\n"
                ((tabs depth ++ pyStrip (raw.node_value.getD "")) ::
                  serializeChildren inc cs depth)
            else joinWith "\n" (serializeChildren inc cs depth)
        | NodeKind.documentNode => joinWith "\n" (serializeChildren inc cs depth)
termination_by n => sizeOf n
decreasing_by
  all_goals simp_wf
  all_goals try subst_vars
  all_goals try simp only [SNode.mk.sizeOf_spec, List.cons.sizeOf_spec]
  all_goals try omega

/-- The child loop of `serialize_tree`: render each child, keeping the
non-empty renders in order. -/
def serializeChildren (inc : List String) : List SNode → ℕ → List String
  | [], _ => []
  | c :: rest, depth =>
      let t := serializeNode inc c depth
      if t ≠ "" then t :: serializeChildren inc rest depth
      else serializeChildren inc rest depth
termination_by l => sizeOf l
decreasing_by
  all_goals simp_wf
  all_goals try subst_vars
  all_goals try simp only [SNode.mk.sizeOf_spec, List.cons.sizeOf_spec]
  all_goals try omega

end

/-- `serialize_tree`, including the `if not node` guard. -/
def serialize_tree (inc : List String) : Option SNode → ℕ → String
  | none, _ => ""
  | some n, depth => serializeNode inc n depth

/-- C7: a node flagged `excluded_by_parent` is a transparent pass-through:
`serialize_tree` emits no line for the node itself, and renders each kept
child at the very depth the node itself was invoked at — the depth of its
nearest non-excluded ancestor. -/
theorem excluded_node_pass_through (inc : List String) (n : SNode) (depth : ℕ)
    (hexcl : n.excluded_by_parent = true) :
    serialize_tree inc (some n) depth =
      joinWith "\n" (serializeChildren inc n.children depth) := by
  cases n with
  | mk raw cs sh comp inter isnew excl ign disp cc =>
      simp only [SNode.excluded_by_parent] at hexcl
      subst hexcl
      simp [serialize_tree, serializeNode, SNode.children]

/-- An excluded wrapper over the example button. -/
def exExclNode : SNode :=
  .mk (elemDataVis "DIV" []) [exButton] false false false false true false true []

/-- C7 witness: the excluded wrapper at depth 3 renders exactly as the
newline-join of its children rendered at depth 3. -/
theorem excluded_node_pass_through_witness :
    serialize_tree ["title"] (some exExclNode) 3 =
      joinWith "\n" (serializeChildren ["title"] exExclNode.children 3) :=
  excluded_node_pass_through ["title"] exExclNode 3 rfl

/-- C8 (amended): for a rendered, non-excluded, displayed element node with
a non-`svg` tag, the `|SCROLL|` marker is keyed off the
`should_show_scroll_info` flag rather than off scrollability: when the flag
is set and the node is not interactive, the node line is the depth tabs,
then the shadow-host marker, then the literal `|SCROLL|` immediately before
`<tag`; an interactive node instead gets the `*` novelty marker and then
`|SCROLL[` wrapping the bracketed backend id when the flag is set, or a
plain `[id]` otherwise. -/
theorem scroll_marker_placement (inc : List String) (raw : RawData) (cs : List SNode)
    (sh comp isnew ign : Bool) (cc : List CompoundChild) (depth : ℕ)
    (helem : raw.node_type = NodeKind.elementNode)
    (hsvg : ¬ raw.tag_name = "svg") :
    (raw.should_show_scroll_info = true →
     (raw.is_actually_scrollable || raw.is_scrollable) = true →
     ∃ rest,
       serializeNode inc (.mk raw cs sh comp false isnew false ign true cc) depth =
         joinWith "\n"
           ((tabs depth ++ shadowMark sh cs ++ "|SCROLL|<" ++ raw.tag_name ++ rest) ::
             serializeChildren inc cs (depth + 1))) ∧
    (∃ rest,
       serializeNode inc (.mk raw cs sh comp true isnew false ign true cc) depth =
         joinWith "\n"
           ((tabs depth ++ shadowMark sh cs ++ (if isnew then "*" else "") ++
               (if raw.should_show_scroll_info then "|SCROLL[" else "[") ++
               toString raw.backend_node_id ++ "]<" ++ raw.tag_name ++ rest) ::
             serializeChildren inc cs (depth + 1))) := by
  constructor
  · intro hshow hscr
    refine ⟨lineTailOf raw inc cc, ?_⟩
    simp only [serializeNode, helem, if_neg hsvg, hshow, hscr, Bool.false_eq_true,
      if_false, Bool.false_or, Bool.true_or, Bool.or_true, Bool.not_false,
      Bool.and_true, Bool.true_and, if_true, Bool.not_true, Bool.and_false]
  · refine ⟨lineTailOf raw inc cc, ?_⟩
    simp only [serializeNode, helem, if_neg hsvg, Bool.false_eq_true, if_false,
      Bool.true_or, Bool.not_true, Bool.and_false, Bool.false_and, if_true,
      Bool.not_false, Bool.and_true, Bool.true_and]

/-- A scrollable div that is not flagged to show scroll info. -/
def exScrollData : RawData :=
  { node_type := .elementNode, node_name := "DIV", node_value := none,
    attributes := some [], backend_node_id := 0, node_id := 0,
    snapshot_node := some ⟨true, none⟩, is_actually_scrollable := true,
    is_scrollable := false, should_show_scroll_info := false,
    shadow_root_type := none, ax_node := none, scroll_info_text := none }

/-- The corresponding rendered node. -/
def exScrollNode : SNode :=
  .mk exScrollData [] false false false false false false true []

/-- C8 counterexample: a scrollable, non-interactive, displayed element
node that is not flagged to show scroll info renders with NO `|SCROLL|`
marker at all — refuting "every rendered element node that is scrollable
but not interactive carries the literal marker |SCROLL|". -/
theorem scroll_marker_counterexample :
    exScrollNode.raw.is_actually_scrollable = true ∧
    exScrollNode.is_interactive = false ∧
    exScrollNode.excluded_by_parent = false ∧
    exScrollNode.should_display = true ∧
    serialize_tree [] (some exScrollNode) 0 = "<div />" ∧
    pyInStr "|SCROLL|" (serialize_tree [] (some exScrollNode) 0) = false := by
  have h : serialize_tree [] (some exScrollNode) 0 = "<div />" := by
    simp only [serialize_tree, exScrollNode, exScrollData, serializeNode,
      serializeChildren]
    decide
  refine ⟨rfl, rfl, rfl, rfl, h, ?_⟩
  rw [h]
  decide

/-- A scrollable div flagged to show scroll info. -/
def exScrollData2 : RawData :=
  { node_type := .elementNode, node_name := "DIV", node_value := none,
    attributes := some [], backend_node_id := 5, node_id := 0,
    snapshot_node := some ⟨true, none⟩, is_actually_scrollable := true,
    is_scrollable := false, should_show_scroll_info := true,
    shadow_root_type := none, ax_node := none, scroll_info_text := none }

/-- C8 witness: the marker-placement theorem instantiated on the
scroll-flagged div. -/
theorem scroll_marker_placement_witness :
    (exScrollData2.should_show_scroll_info = true →
     (exScrollData2.is_actually_scrollable || exScrollData2.is_scrollable) = true →
     ∃ rest,
       serializeNode [] (.mk exScrollData2 [] false false false false false false
           true []) 0 =
         joinWith "\n"
           ((tabs 0 ++ shadowMark false [] ++ "|SCROLL|<" ++ exScrollData2.tag_name ++
               rest) :: serializeChildren [] [] (0 + 1))) ∧
    (∃ rest,
       serializeNode [] (.mk exScrollData2 [] false false true false false false
           true []) 0 =
         joinWith "\n"
           ((tabs 0 ++ shadowMark false [] ++ (if false then "*" else "") ++
               (if exScrollData2.should_show_scroll_info then "|SCROLL[" else "[") ++
               toString exScrollData2.backend_node_id ++ "]<" ++
               exScrollData2.tag_name ++ rest) :: serializeChildren [] [] (0 + 1))) :=
  scroll_marker_placement [] exScrollData2 [] false false false false [] 0 rfl
    (by decide)

end DomSerializer
